import Mathlib

/-!
# Verification of the AI-Calendar-Assistant dialogue orchestration engine

Shallow embedding of the core logic of the repository:

* `qwenService.js` — intent-extraction / event-search response parsing,
* `calendarService` (in `geminiService.js`) — `formatEventData`, `mergeEventData`,
  `isValidEmail`,
* `intentProcessor` (IntentProcessor class) — `validateAndResolve`,
  `generateClarificationMessage`, `executeAction` and its handlers,
  `executeMultipleIntents`, `resolveEventIdentifier`, `updateUserSession`,
  `checkContextContinuation`, `continueEventUpdate`, `processMessage`,
* `constants/intents` — intent enumeration, `REQUIRED_FIELDS`,
  `CONFIDENCE_THRESHOLD`.

JavaScript values flowing out of `JSON.parse` are modelled by the inductive
type `JVal` (JSON has no `NaN`/`Infinity`/`undefined`, so numbers are modelled
as exact rationals).  `undefined` (a missing property) is modelled by
`Option JVal = none`.  Network / collaborator calls are modelled by `Except`
parameters: `.error e` is a thrown exception with message `e`, `.ok v` a
successful response.
-/

set_option maxHeartbeats 1000000

namespace AICal

/-- Model of a JavaScript value produced by `JSON.parse` (plus booleans and
strings used elsewhere).  Numbers are exact rationals, which is faithful for
the JSON literals appearing in the modelled code paths. -/
inductive JVal : Type where
  | jnull : JVal
  | jbool : Bool → JVal
  | jnum : ℚ → JVal
  | jstr : String → JVal
  | jarr : List JVal → JVal
  | jobj : List (String × JVal) → JVal

namespace JVal

/-- JavaScript truthiness of a defined value (`null`, `false`, `0`, `""` are
falsy; arrays and objects are always truthy). -/
def truthy : JVal → Bool
  | jnull => false
  | jbool b => b
  | jnum q => q ≠ 0
  | jstr s => s ≠ ""
  | jarr _ => true
  | jobj _ => true

/-- Property access `v.k`: `none` models JavaScript `undefined`. -/
def getF : JVal → String → Option JVal
  | jobj m, k => (m.find? (fun p => p.1 = k)).map Prod.snd
  | _, _ => none

/-- Truthiness of a possibly-`undefined` value (`undefined` is falsy). -/
def truthyO : Option JVal → Bool
  | none => false
  | some v => v.truthy

/-- `typeof v === "number"` for a possibly-`undefined` property. -/
def isNumberO : Option JVal → Bool
  | some (jnum _) => true
  | _ => false

/-- `typeof v === "boolean"` for a possibly-`undefined` property. -/
def isBoolO : Option JVal → Bool
  | some (jbool _) => true
  | _ => false

/-- `Array.isArray(v)` for a possibly-`undefined` property. -/
def isArrayO : Option JVal → Bool
  | some (jarr _) => true
  | _ => false

/-- Numeric value of a property known to be a number (`0` otherwise; only used
after an `isNumberO` guard, mirroring the JS `typeof` check). -/
def numO : Option JVal → ℚ
  | some (jnum q) => q
  | _ => 0

/-- Assignment `obj.k = v` on an object: replaces the binding if the key is
present, appends it otherwise (JS objects have unique keys). -/
def setF : JVal → String → JVal → JVal
  | jobj m, k, v =>
      if m.any (fun p => p.1 = k) then
        jobj (m.map (fun p => if p.1 = k then (k, v) else p))
      else jobj (m ++ [(k, v)])
  | w, _, _ => w

/-- JavaScript strict equality `a === b` between two possibly-`undefined`
values **of distinct provenance** (one parsed from the network response, one
from the calendar API): primitives compare by value, while objects/arrays
compare by reference and hence are unequal here.
`undefined === undefined` is `true`. -/
def strictEqO : Option JVal → Option JVal → Bool
  | none, none => true
  | some jnull, some jnull => true
  | some (jbool a), some (jbool b) => a = b
  | some (jnum a), some (jnum b) => a = b
  | some (jstr a), some (jstr b) => a = b
  | _, _ => false

end JVal

/-! ## `constants/intents` -/

/-- `CONFIDENCE_THRESHOLD` from `constants/intents`. -/
def CONFIDENCE_THRESHOLD : ℚ := 7/10

/-- The fixed intent enumeration `INTENTS` from `constants/intents`. -/
def knownIntents : List String :=
  ["create_event", "update_event", "cancel_event", "prepare_event",
   "followup_event", "list_events", "get_information", "help_request",
   "general_chat"]

/-- `REQUIRED_FIELDS` table from `constants/intents`; an intent absent from
the table yields `[]` (the source reads `REQUIRED_FIELDS[intent] || []`). -/
def REQUIRED_FIELDS (intent : String) : List String :=
  if intent = "create_event" then ["title", "date", "time"]
  else if intent = "update_event" then ["event_identifier"]
  else if intent = "cancel_event" then ["event_identifier"]
  else if intent = "prepare_event" then ["event_identifier"]
  else if intent = "followup_event" then ["event_identifier", "followupDays"]
  else []

/-! ## `qwenService.parseIntentResponse`

The raw LLM response text either contains no `{...}` block or fails
`JSON.parse` (both modelled by `none`), or parses to a `JVal` object. -/

/-- The `general_chat` fallback object returned by `parseIntentResponse` on
any parse failure or low confidence. -/
def fallbackIntentResult : JVal :=
  .jobj [("intent", .jstr "general_chat"), ("confidence", .jnum (1/2)),
         ("fields", .jobj [])]

/-- `qwenService.parseIntentResponse`: `none` models a response with no JSON
object or unparseable JSON (the `throw` is caught and becomes the fallback). -/
def parseIntentResponse (resp : Option JVal) : JVal :=
  match resp with
  | none => fallbackIntentResult
  | some parsed =>
    -- multiple-intent passthrough
    if JVal.truthyO (parsed.getF "multipleIntents") ∧
       JVal.isArrayO (parsed.getF "multipleIntents") then parsed
    -- structure validation (throw caught → fallback)
    else if ¬ JVal.truthyO (parsed.getF "intent") ∨
            ¬ JVal.isNumberO (parsed.getF "confidence") ∨
            ¬ JVal.truthyO (parsed.getF "fields") then fallbackIntentResult
    else
      -- Math.max(0, Math.min(1, confidence))
      let c : ℚ := max 0 (min 1 (JVal.numO (parsed.getF "confidence")))
      if c < CONFIDENCE_THRESHOLD then fallbackIntentResult
      else parsed.setF "confidence" (.jnum c)

/-! ## `qwenService.parseEventSearchResponse` -/

/-- One of the fixed failure objects `{success:false, event:null,
confidence:0, message}` built by `parseEventSearchResponse`. -/
def searchFailure (msg : String) : JVal :=
  .jobj [("success", .jbool false), ("event", .jnull),
         ("confidence", .jnum 0), ("message", .jstr msg)]

/-- `qwenService.parseEventSearchResponse generatedText calendarEvents`.
`resp = none` models a response with no JSON object / invalid JSON. -/
def parseEventSearchResponse (resp : Option JVal) (calendarEvents : List JVal) :
    JVal :=
  match resp with
  | none => searchFailure "Could not parse AI response"
  | some parsed =>
    if ¬ JVal.isBoolO (parsed.getF "success") ∨
       ¬ JVal.isNumberO (parsed.getF "confidence") then
      searchFailure "Invalid AI response format"
    else if JVal.truthyO (parsed.getF "success") ∧ JVal.truthyO (parsed.getF "event") then
      match calendarEvents.find?
          (fun e => JVal.strictEqO (e.getF "id")
            ((parsed.getF "event").bind (fun ev => ev.getF "id"))) with
      | none => searchFailure "AI suggested event not found in calendar"
      | some foundEvent => parsed.setF "event" foundEvent
    else parsed

end AICal

namespace AICal

/-! ## calendarService (`geminiService.js`, CalendarService class)

Calendar timestamps (`start.dateTime` / `end.dateTime`) are modelled as
minutes since the Unix epoch (UTC), which is exact for the whole-minute
values the service constructs (`moment(..., "YYYY-MM-DD HH:mm")`).
`moment.diff(..., "minutes")` and `moment.add(..., "minutes")` become integer
subtraction and addition on this representation. -/

/-- A parsed `YYYY-MM-DD` date (the service always receives valid dates in
this format from the extraction layer; months are 1..12). -/
structure DateV where
  year : ℤ
  month : ℕ
  day : ℕ

/-- A parsed `HH:mm` time of day. -/
structure TimeV where
  hour : ℕ
  minute : ℕ

/-- Days since 1970-01-01 of a proleptic Gregorian civil date
(standard era/year-of-era computation; divisions act on nonnegative
operands for all CE dates, so `/` on `ℤ` is exact here). -/
def daysFromCivil (y : ℤ) (m d : ℕ) : ℤ :=
  let y' : ℤ := if m ≤ 2 then y - 1 else y
  let era : ℤ := (if 0 ≤ y' then y' else y' - 399) / 400
  let yoe : ℤ := y' - era * 400
  let mp : ℤ := ((m : ℤ) + 9) % 12
  let doy : ℤ := (153 * mp + 2) / 5 + (d : ℤ) - 1
  let doe : ℤ := yoe * 365 + yoe / 4 - yoe / 100 + doy
  era * 146097 + doe - 719468

/-- The instant (minutes since epoch, UTC) denoted by
`moment(`date time`, "YYYY-MM-DD HH:mm")` as serialized by `toISOString()`. -/
def civilToMinutes (d : DateV) (t : TimeV) : ℤ :=
  daysFromCivil d.year d.month d.day * 1440 + (t.hour : ℤ) * 60 + (t.minute : ℤ)

/-- `moment` month abbreviation (format token `MMM`). -/
def monthAbbrev (m : ℕ) : String :=
  if m = 1 then "Jan" else if m = 2 then "Feb" else if m = 3 then "Mar"
  else if m = 4 then "Apr" else if m = 5 then "May" else if m = 6 then "Jun"
  else if m = 7 then "Jul" else if m = 8 then "Aug" else if m = 9 then "Sep"
  else if m = 10 then "Oct" else if m = 11 then "Nov" else if m = 12 then "Dec"
  else ""

/-- Two-digit zero padding (format tokens `DD`, `HH`, `mm`). -/
def pad2 (n : ℕ) : String :=
  if n < 10 then "0" ++ toString n else toString n

/-- `startDateTime.format("MMM DD, YYYY")`. -/
def fmtMMMDDYYYY (d : DateV) : String :=
  monthAbbrev d.month ++ " " ++ pad2 d.day ++ ", " ++ toString d.year

/-- `startDateTime.format("HH:mm")`. -/
def fmtHHmm (t : TimeV) : String :=
  pad2 t.hour ++ ":" ++ pad2 t.minute

/-- `String.trim` / JS `String.prototype.trim()`: strip leading and
trailing whitespace, implemented directly on the character list so that it
evaluates inside the kernel. -/
def strTrim (s : String) : String :=
  String.mk (((s.data.dropWhile Char.isWhitespace).reverse.dropWhile
    Char.isWhitespace).reverse)

/-- The ASCII part of the JavaScript regex class `\s` (the service never
receives the non-ASCII whitespace code points). -/
def isWsChar (c : Char) : Bool :=
  c = ' ' || c = '\t' || c = '\n' || c = '\r' || c = '\x0b' || c = '\x0c'

/-- `calendarService.isValidEmail`, deciding the regex
`^[^\s@]+@[^\s@]+\.[^\s@]+$`: the string splits as `local@domain` with a
nonempty `local` free of whitespace and `@`, a `domain` free of whitespace
and `@`, and a `.` in `domain` that is neither its first nor its last
character (`[^\s@]` admits `.`, so only one `@` may occur). -/
def isValidEmail (email : String) : Bool :=
  let cs := email.data
  let lp := cs.takeWhile (fun c => !(isWsChar c) && c ≠ '@')
  match cs.drop lp.length with
  | '@' :: dom =>
      !lp.isEmpty &&
      dom.all (fun c => !(isWsChar c) && c ≠ '@') &&
      ((dom.drop 1).dropLast).contains '.'
  | _ => false

/-- `Array.prototype.join(", ")`. -/
def joinComma : List String → String
  | [] => ""
  | [x] => x
  | x :: y :: t => x ++ ", " ++ joinComma (y :: t)

/-- Truthiness of an optional string-valued property (`undefined` and `""`
are falsy). -/
def strTruthy : Option String → Bool
  | none => false
  | some s => s ≠ ""

/-- Truthiness of the numeric `duration` property (`undefined` and `0` are
falsy). -/
def durTruthy : Option ℤ → Bool
  | none => false
  | some d => d ≠ 0

/-- An attendee object `{ email }` sent to the Google Calendar API. -/
structure GAttendee where
  email : String

/-- The raw field map handed to `calendarService.createEvent` /
`formatEventData` (extraction output).  `date`/`time` are present and valid
on this code path (required fields, checked upstream); `endTime` models the
source's `end` field (`end` is a Lean keyword). -/
structure EventInput where
  title : Option String := none
  date : DateV
  time : TimeV
  endTime : Option TimeV := none
  duration : Option ℤ := none
  location : Option String := none
  attendees : Option (List String) := none
  description : Option String := none
  recurrence : Option String := none

/-- The formatted Google Calendar event built by `formatEventData`
(`summary`, `description`, `location`, `start`/`end` instants, `recurrence`,
optional `attendees`). -/
structure GEventOut where
  summary : String
  description : String
  location : String
  startMin : ℤ
  endMin : ℤ
  recurrence : List (Option String)
  attendees : Option (List GAttendee)

/-- `calendarService.formatEventData`. -/
def formatEventData (e : EventInput) : GEventOut :=
  let startDT := civilToMinutes e.date e.time
  let endDT :=
    if e.endTime.isSome then
      civilToMinutes e.date (e.endTime.getD ⟨0, 0⟩)
    else if durTruthy e.duration then startDT + (e.duration.getD 0)
    else startDT + 60
  -- `if (!eventTitle || eventTitle.trim() === "")` — synthesize a title
  let eventTitle :=
    match e.title with
    | some t => if strTrim t = "" then
        "Meeting on " ++ fmtMMMDDYYYY e.date ++ " at " ++ fmtHHmm e.time
      else t
    | none => "Meeting on " ++ fmtMMMDDYYYY e.date ++ " at " ++ fmtHHmm e.time
  -- `let eventDescription = description || ""` plus the attendee/location text
  let atts := e.attendees.getD []
  let attPresent := e.attendees.isSome && decide (0 < atts.length)
  let d0 := e.description.getD ""
  let d1 :=
    if attPresent then
      (if d0 ≠ "" then d0 ++ "\n\n" else "") ++ "Attendees: " ++ joinComma atts
    else d0
  let d2 :=
    if strTruthy e.location then
      (if d1 ≠ "" then d1 ++ "\n\n" else "") ++
        "Location: " ++ (e.location.getD "")
    else d1
  -- attendee filtering: valid emails become `attendees`, otherwise the
  -- nonblank names are appended to the description
  let validAttendees := (atts.filter isValidEmail).map GAttendee.mk
  let finalDesc :=
    if attPresent then
      if 0 < validAttendees.length then d2
      else
        let attendeeNames := atts.filter (fun n => n ≠ "" && strTrim n ≠ "")
        if 0 < attendeeNames.length then
          (if d2 ≠ "" then d2 ++ "\n\n" else "") ++
            "Attendees: " ++ joinComma attendeeNames
        else d2
    else d2
  { summary := eventTitle
    description := finalDesc
    location := e.location.getD ""
    startMin := startDT
    endMin := endDT
    recurrence := [e.recurrence]
    attendees :=
      if attPresent && decide (0 < validAttendees.length) then
        some validAttendees
      else none }

/-- A stored Google Calendar event as fetched by `calendar.events.get`
(fields relevant to the merge; instants in minutes since epoch). -/
structure GEvent where
  id : String
  summary : String
  description : Option String
  location : Option String
  startMin : ℤ
  endMin : ℤ
  attendees : Option (List GAttendee)

/-- The update payload handed to `calendarService.updateEvent` /
`mergeEventData` (`endTime` models the source's `end` field). -/
structure UpdateData where
  title : Option String := none
  description : Option String := none
  location : Option String := none
  date : Option DateV := none
  time : Option TimeV := none
  endTime : Option TimeV := none
  duration : Option ℤ := none
  attendees : Option (List String) := none

/-- `calendarService.mergeEventData existingEvent updateData`
(`{...existingEvent}` then field-by-field overrides). -/
def mergeEventData (existingEvent : GEvent) (updateData : UpdateData) : GEvent :=
  let m0 := existingEvent
  let m1 := if strTruthy updateData.title then
      { m0 with summary := updateData.title.getD "" } else m0
  let m2 := if strTruthy updateData.description then
      { m1 with description := updateData.description } else m1
  let m3 := if strTruthy updateData.location then
      { m2 with location := updateData.location } else m2
  let m4 :=
    match updateData.date, updateData.time with
    | some d, some t =>
      let newStart := civilToMinutes d t
      let newEnd :=
        match updateData.endTime with
        | some te => civilToMinutes d te
        | none =>
          if durTruthy updateData.duration then
            newStart + (updateData.duration.getD 0)
          else
            -- preserve the original duration
            newStart + (existingEvent.endMin - existingEvent.startMin)
      { m3 with startMin := newStart, endMin := newEnd }
    | _, _ => m3
  match updateData.attendees with
  | none => m4
  | some atts =>
    let validAttendees := (atts.filter isValidEmail).map GAttendee.mk
    if 0 < validAttendees.length then
      { m4 with attendees := some validAttendees }
    else
      let attendeeNames := atts.filter (fun n => n ≠ "" && strTrim n ≠ "")
      if 0 < attendeeNames.length then
        let appended :=
          match m4.description with
          | some s =>
            if s ≠ "" then s ++ "\n\nAttendees: " ++ joinComma attendeeNames
            else "Attendees: " ++ joinComma attendeeNames
          | none => "Attendees: " ++ joinComma attendeeNames
        { m4 with description := some appended }
      else m4

end AICal

namespace AICal

/-! ## intentProcessor (`services/intentProcessor.js`)

Session state for one user of the `userSessions` map.  All collaborator
round-trips (Qwen NLU, Google Calendar) are modelled by `Except String`
parameters: `.error e` models a thrown error with message `e`. -/

/-- One conversation turn `{role, content, timestamp}`. -/
structure Turn where
  role : String
  content : String
  timestamp : ℤ

/-- `session.pendingIntent` as stored by `validateAndResolve`. -/
structure PendingIntent where
  intent : String
  fields : List (String × JVal)
  missingFields : List String
  timestamp : ℤ

/-- `session.context` as stored by `updateUserContext`. -/
structure ActiveContext where
  active : Bool
  type : String
  eventId : String
  timestamp : ℤ

/-- One user's session record (`getUserSession` creates it with an empty
history, no pending intent and no context). -/
structure Session where
  conversationHistory : List Turn
  pendingIntent : Option PendingIntent
  context : Option ActiveContext
  lastActivity : ℤ

/-- The session created lazily by `getUserSession`. -/
def freshSession (now : ℤ) : Session :=
  { conversationHistory := [], pendingIntent := none, context := none,
    lastActivity := now }

/-- `updateUserSession`: push the user and assistant turns, then
`slice(-20)` when more than 20 entries are stored. -/
def updateUserSession (session : Session) (message response : String)
    (now : ℤ) : Session :=
  let h := session.conversationHistory ++
    [⟨"user", message, now⟩, ⟨"assistant", response, now⟩]
  let h' := if 20 < h.length then h.drop (h.length - 20) else h
  { session with conversationHistory := h', lastActivity := now }

/-- Field-map lookup `fields[k]` (`none` models `undefined`). -/
def fGet (fields : List (String × JVal)) (k : String) : Option JVal :=
  (fields.find? (fun p => p.1 = k)).map Prod.snd

/-- Field-map assignment `fields[k] = v`. -/
def fSet (fields : List (String × JVal)) (k : String) (v : JVal) :
    List (String × JVal) :=
  if fields.any (fun p => p.1 = k) then
    fields.map (fun p => if p.1 = k then (k, v) else p)
  else fields ++ [(k, v)]

/-- The field-name → human-label table of `generateClarificationMessage`
(`fieldNames[field] || field`). -/
def fieldLabel (field : String) : String :=
  if field = "title" then "event title"
  else if field = "date" then "date"
  else if field = "time" then "time"
  else if field = "location" then "location"
  else if field = "attendees" then "attendees"
  else if field = "description" then "description"
  else if field = "event_identifier" then "event identifier"
  else if field = "followupDays" then "number of days for follow-up"
  else field

/-- `getIntentAction`. -/
def getIntentAction (intent : String) : String :=
  if intent = "create_event" then "create the event"
  else if intent = "update_event" then "update the event"
  else if intent = "cancel_event" then "cancel the event"
  else if intent = "prepare_event" then "prepare for the event"
  else if intent = "followup_event" then "schedule the follow-up"
  else "complete this action"

/-- `generateClarificationMessage intent missingFields existingFields`
(the third parameter is unused in the source as well). -/
def generateClarificationMessage (intent : String)
    (missingFields : List String) (existingFields : List (String × JVal)) :
    String :=
  let missingFieldNames := missingFields.map fieldLabel
  match missingFieldNames with
  | [n] =>
      "I need the " ++ n ++ " to " ++ getIntentAction intent ++
        ". Please provide it."
  | _ =>
      "I need the following information to " ++ getIntentAction intent ++
        ": " ++ joinComma missingFieldNames ++ ". Please provide these details."

/-- Intent-extraction output consumed by `validateAndResolve`
(`{intent, confidence, fields, originalMessage}`; splitter items carry no
confidence and no original message). -/
structure ExtractionResult where
  intent : String
  confidence : Option ℚ := none
  fields : List (String × JVal) := []
  originalMessage : Option String := none

/-- Result of `resolveEventIdentifier` (the found-branch `message` carries
the raw `aiResult.message`, hence `Option JVal`). -/
structure ResolveResult where
  success : Bool
  event : Option JVal := none
  confidence : Option JVal := none
  message : Option JVal := none
  events : Option (List JVal) := none
  multipleMatches : Bool := false

/-- Output of `validateAndResolve` (absent JS properties are `none`/`false`). -/
structure ValidationResult where
  intent : String
  confidence : Option ℚ := none
  fields : List (String × JVal) := []
  missingFields : Option (List String) := none
  requiresAction : Bool
  needsClarification : Bool := false
  clarificationMessage : Option JVal := none
  originalMessage : Option String := none

/-- `resolveEventIdentifier identifier`: `searchOutcome` models the
`calendarService.searchEvents("")` round-trip, `aiResp` the
`qwenService.findMatchingEvent` round-trip (its `.ok` payload being the
response JSON handed to `parseEventSearchResponse`, `none` when the response
text contains no parseable JSON). -/
def resolveEventIdentifier (identifier : String)
    (searchOutcome : Except String (List JVal))
    (aiResp : Except String (Option JVal)) : ResolveResult :=
  match searchOutcome with
  | .error _ =>
      { success := false,
        message := some (.jstr "Error searching for events. Please try again.") }
  | .ok calendarEvents =>
    if calendarEvents.isEmpty then
      { success := false,
        message := some (.jstr "No events found in your calendar.") }
    else
      match aiResp with
      | .error _ =>
          { success := false,
            message := some (.jstr "Error searching for events. Please try again.") }
      | .ok resp =>
        let aiResult := parseEventSearchResponse resp calendarEvents
        if JVal.truthyO (aiResult.getF "success") ∧
           JVal.truthyO (aiResult.getF "event") then
          { success := true, event := aiResult.getF "event",
            confidence := aiResult.getF "confidence",
            message := aiResult.getF "message" }
        else
          { success := false,
            message := some (.jstr ("Multiple events found matching \"" ++
              identifier ++ "\". Please be more specific:")),
            events := some [], multipleMatches := true }

/-- The intents that trigger event resolution in `validateAndResolve`. -/
def resolutionIntents : List String :=
  ["update_event", "cancel_event", "prepare_event", "followup_event"]

/-- `validateAndResolve extractionResult userId`: returns the validation
result together with the (possibly mutated) session.  `resolveOutcome` is
the result of the `resolveEventIdentifier` call performed on the resolution
path. -/
def validateAndResolve (er : ExtractionResult) (session : Session) (now : ℤ)
    (resolveOutcome : ResolveResult) : ValidationResult × Session :=
  if er.intent = "general_chat" then
    ({ intent := er.intent, confidence := er.confidence, fields := [],
       requiresAction := false, originalMessage := er.originalMessage },
     session)
  else
    let requiredFields := REQUIRED_FIELDS er.intent
    let missingFields :=
      requiredFields.filter (fun field => ¬ JVal.truthyO (fGet er.fields field))
    if missingFields ≠ [] then
      ({ intent := er.intent, confidence := er.confidence, fields := er.fields,
         missingFields := some missingFields, requiresAction := false,
         needsClarification := true,
         clarificationMessage := some (.jstr
           (generateClarificationMessage er.intent missingFields er.fields)) },
       { session with pendingIntent := some (PendingIntent.mk er.intent er.fields missingFields now) })
    else if er.intent ∈ resolutionIntents then
      if ¬ resolveOutcome.success then
        ({ intent := er.intent, confidence := er.confidence,
           fields := er.fields, requiresAction := false,
           needsClarification := true,
           clarificationMessage := resolveOutcome.message }, session)
      else
        let fields1 := fSet er.fields "resolvedEvent"
          (resolveOutcome.event.getD .jnull)
        let fields2 :=
          if resolveOutcome.multipleMatches then
            fSet fields1 "multipleMatches"
              (.jarr ((resolveOutcome.events).getD []))
          else fields1
        ({ intent := er.intent, confidence := er.confidence, fields := fields2,
           requiresAction := true }, session)
    else
      ({ intent := er.intent, confidence := er.confidence, fields := er.fields,
         requiresAction := true }, session)

end AICal

namespace AICal

/-- Template-literal display of a JS value (`${v}`).  Array and number
rendering is display-only (no theorem inspects rendered arrays or numbers;
rationals print as fractions). -/
def jshow : JVal → String
  | .jnull => "null"
  | .jbool b => if b then "true" else "false"
  | .jnum q => toString q
  | .jstr s => s
  | .jarr _ => ""
  | .jobj _ => "[object Object]"

/-- `${v}` for a possibly-`undefined` value. -/
def jshowO : Option JVal → String
  | none => "undefined"
  | some v => jshow v

/-- `x || d` for an optional string (`undefined` and `""` are falsy). -/
def strOr (x : Option String) (d : String) : String :=
  match x with
  | some s => if s = "" then d else s
  | none => d

/-- Successful result of a calendar mutation
(`{success:true, event, message}`). -/
structure CalendarOk where
  message : String
  event : JVal

/-- Result of an action handler (`{success, type?, message?, data?, error?}`). -/
structure ActionResult where
  success : Bool
  type : Option String := none
  message : Option JVal := none
  data : Option JVal := none
  error : Option String := none

/-- Collaborator outcomes for one `executeAction` call: each field models
one Calendar/NLU round-trip (`.error e` = the call threw with message `e`). -/
structure Oracle where
  createOutcome : Except String CalendarOk
  updateOutcome : Except String CalendarOk
  cancelOutcome : Except String String
  getEventOutcome : Except String JVal
  notesOutcome : Except String String
  followupOutcome : Except String CalendarOk
  searchOutcome : Except String (List JVal)
  listGenOutcome : Except String String

/-- `executeCreateEvent`. -/
def executeCreateEvent (outcome : Except String CalendarOk) : ActionResult :=
  match outcome with
  | .ok result =>
      { success := true, type := some "calendar_action",
        message := some (.jstr result.message),
        data := some (.jobj [("action", .jstr "create_event"),
                             ("event", result.event)]) }
  | .error e => { success := false, error := some e }

/-- `executeUpdateEvent` (destructures `resolvedEvent` out of the fields;
a missing `resolvedEvent` makes `resolvedEvent.id` throw a TypeError, caught
by the handler's own catch). -/
def executeUpdateEvent (fields : List (String × JVal))
    (outcome : Except String CalendarOk) : ActionResult :=
  match fGet fields "resolvedEvent" with
  | none => { success := false,
              error := some "Cannot read properties of undefined (reading id)" }
  | some _ =>
    match outcome with
    | .ok result =>
        { success := true, type := some "calendar_action",
          message := some (.jstr result.message),
          data := some (.jobj [("action", .jstr "update_event"),
                               ("event", result.event)]) }
    | .error e => { success := false, error := some e }

/-- `executeCancelEvent`. -/
def executeCancelEvent (fields : List (String × JVal))
    (outcome : Except String String) : ActionResult :=
  match fGet fields "resolvedEvent" with
  | none => { success := false,
              error := some "Cannot read properties of undefined (reading id)" }
  | some resolvedEvent =>
    match outcome with
    | .ok message =>
        { success := true, type := some "calendar_action",
          message := some (.jstr message),
          data := some (.jobj [("action", .jstr "cancel_event"),
            ("eventId", (resolvedEvent.getF "id").getD .jnull)]) }
    | .error e => { success := false, error := some e }

/-- `executePrepareEvent` (the notes call has its own try/catch inside
`generateEventNotes`, degrading to a static string). -/
def executePrepareEvent (fields : List (String × JVal))
    (getOutcome : Except String JVal)
    (notesOutcome : Except String String) : ActionResult :=
  match fGet fields "resolvedEvent" with
  | none => { success := false,
              error := some "Cannot read properties of undefined (reading id)" }
  | some _ =>
    match getOutcome with
    | .error e => { success := false, error := some e }
    | .ok event =>
      let notes :=
        match notesOutcome with
        | .ok s => s
        | .error _ => "Unable to generate notes at this time."
      { success := true, type := some "calendar_action",
        message := some (.jstr "Here are the details and notes for your event:"),
        data := some (.jobj [("action", .jstr "prepare_event"),
          ("event", event), ("notes", .jstr notes)]) }

/-- `executeFollowupEvent`. -/
def executeFollowupEvent (fields : List (String × JVal))
    (outcome : Except String CalendarOk) : ActionResult :=
  match fGet fields "resolvedEvent" with
  | none => { success := false,
              error := some "Cannot read properties of undefined (reading id)" }
  | some _ =>
    match outcome with
    | .ok result =>
        { success := true, type := some "calendar_action",
          message := some (.jstr result.message),
          data := some (.jobj [("action", .jstr "followup_event"),
                               ("event", result.event)]) }
    | .error e => { success := false, error := some e }

/-- `executeListEvents`. -/
def executeListEvents (searchOutcome : Except String (List JVal))
    (listGenOutcome : Except String String) : ActionResult :=
  match searchOutcome with
  | .error e => { success := false, error := some e }
  | .ok calendarEvents =>
    match listGenOutcome with
    | .error e => { success := false, error := some e }
    | .ok response =>
        { success := true, type := some "calendar_info",
          message := some (.jstr response),
          data := some (.jobj [("events", .jarr calendarEvents),
            ("totalCount", .jnum calendarEvents.length)]) }

/-- `executeGetInformation` (static). -/
def executeGetInformation : ActionResult :=
  { success := true, type := some "chat",
    message := some (.jstr ("I can help you with calendar management tasks. Here's what I can do:\n\n📅 **Calendar Actions:**\n• Create events: \"Schedule a meeting with John tomorrow at 2 PM\"\n• Update events: \"Change my 3 PM meeting to 4 PM\"\n• Cancel events: \"Cancel my meeting tomorrow\"\n• Prepare for events: \"What do I need for my presentation tomorrow?\"\n• Create follow-ups: \"Set up a follow-up meeting in 3 days\"\n\n💡 **Tips:**\n• Always include a clear title for events so you can find them later\n• Specify dates and times clearly\n• I can add attendees, locations, and descriptions\n\nWhat would you like to do?")) }

/-- `executeHelpRequest` (static). -/
def executeHelpRequest : ActionResult :=
  { success := true, type := some "chat",
    message := some (.jstr ("I'm your calendar assistant! Here's how to use me:\n\n**Creating Events:**\n\"Create an event for me tomorrow with John at 13:00 to discuss the project\"\n\n**Finding Events:**\n\"Show me my meetings tomorrow\"\n\"What events do I have this week?\"\n\n**Managing Events:**\n\"Cancel my 3 PM meeting\"\n\"Move my meeting to 4 PM\"\n\"Add Sarah to my meeting tomorrow\"\n\n**Getting Help:**\n\"Help me prepare for my presentation tomorrow\"\n\"Set up a follow-up meeting in 3 days\"\n\nJust tell me what you need in natural language!")) }

/-- `executeGeneralChat` (static). -/
def executeGeneralChat : ActionResult :=
  { success := true, type := some "chat",
    message := some (.jstr "I'm your calendar assistant! I can help you with:\n\n📅 Creating and managing calendar events\n📋 Finding your upcoming meetings\n✏️ Updating or canceling events\n\nWhat would you like to do with your calendar?") }

/-- The `switch (intent)` of `executeAction` (the `default` case throws
`Unsupported intent`). -/
def executeSwitch (v : ValidationResult) (oracle : Oracle) :
    Except String ActionResult :=
  if v.intent = "create_event" then .ok (executeCreateEvent oracle.createOutcome)
  else if v.intent = "update_event" then
    .ok (executeUpdateEvent v.fields oracle.updateOutcome)
  else if v.intent = "cancel_event" then
    .ok (executeCancelEvent v.fields oracle.cancelOutcome)
  else if v.intent = "prepare_event" then
    .ok (executePrepareEvent v.fields oracle.getEventOutcome oracle.notesOutcome)
  else if v.intent = "followup_event" then
    .ok (executeFollowupEvent v.fields oracle.followupOutcome)
  else if v.intent = "list_events" then
    .ok (executeListEvents oracle.searchOutcome oracle.listGenOutcome)
  else if v.intent = "get_information" then .ok executeGetInformation
  else if v.intent = "help_request" then .ok executeHelpRequest
  else if v.intent = "general_chat" then .ok executeGeneralChat
  else .error ("Unsupported intent: " ++ v.intent)

/-- `executeAction` (the non-action prelude, then the intent switch). -/
def executeAction (v : ValidationResult) (oracle : Oracle) :
    Except String ActionResult :=
  if ¬ v.requiresAction then
    if v.needsClarification then
      .ok { success := true, type := some "clarification",
            message := v.clarificationMessage }
    else if v.intent = "general_chat" then .ok executeGeneralChat
    else executeSwitch v oracle
  else executeSwitch v oracle

/-- `generateFeedback` (the second parameter is unused in the source too). -/
def generateFeedback (actionResult : ActionResult)
    (validationResult : ValidationResult) : String :=
  if actionResult.type = some "clarification" then jshowO actionResult.message
  else if actionResult.type = some "chat" then jshowO actionResult.message
  else if actionResult.success then
    -- `actionResult.message || "Action completed successfully."`
    match actionResult.message with
    | some (.jstr s) => if s = "" then "Action completed successfully." else s
    | some v => if v.truthy then jshow v else "Action completed successfully."
    | none => "Action completed successfully."
  else strOr actionResult.error "Action failed. Please try again."

end AICal

namespace AICal

/-! ## Multi-intent execution and the orchestrator -/

/-- One entry of the multi-step `results` array
(`{success, intent, message, data?}`). -/
structure StepResult where
  success : Bool
  intent : String
  message : Option JVal := none
  data : Option JVal := none

/-- The structured payload of a multi-intent reply
(`{action, results, totalIntents, successfulIntents}`). -/
structure MultiData where
  action : String
  results : List StepResult
  totalIntents : ℕ
  successfulIntents : ℕ

/-- `data` payload of the orchestrator reply: either a multi-step report or
a handler's JSON payload. -/
inductive DataPayload : Type where
  | multi : MultiData → DataPayload
  | jval : JVal → DataPayload

/-- The orchestrator reply
(`{success, intent?, confidence?, response, data?, error?}`; `response` is a
raw JS value because `generateFeedback` returns `actionResult.message`
unconverted on the clarification path). -/
structure ProcResult where
  success : Bool
  intent : Option String := none
  confidence : Option ℚ := none
  response : Option JVal := none
  data : Option DataPayload := none
  error : Option String := none

/-- Per-sub-intent environment in a multi-intent execution: the sub-intent
itself plus the collaborator outcomes its validation/execution would use. -/
def MultiStep : Type := ExtractionResult × ResolveResult × Oracle

/-- The loop body state of `executeMultipleIntents`: accumulated results,
`allSuccessful`, `combinedMessage`, and the mutated session. -/
def multiLoop (now : ℤ) :
    List MultiStep → ℕ → List StepResult → Bool → String → Session →
    List StepResult × Bool × String × Session
  | [], _, acc, allSucc, combined, session => (acc, allSucc, combined, session)
  | step :: rest, i, acc, allSucc, combined, session =>
    let er := step.1
    let (validationResult, session1) := validateAndResolve er session now step.2.1
    if validationResult.needsClarification then
      multiLoop now rest (i + 1)
        (acc ++ [{ success := false, intent := er.intent,
                   message := validationResult.clarificationMessage }])
        false
        (combined ++ toString (i + 1) ++ ". ❌ " ++ er.intent ++ ": " ++
          jshowO validationResult.clarificationMessage ++ "\n")
        session1
    else
      match executeAction validationResult step.2.2 with
      | .error e =>
          multiLoop now rest (i + 1)
            (acc ++ [{ success := false, intent := er.intent,
                       message := some (.jstr e) }])
            false
            (combined ++ toString (i + 1) ++ ". ❌ " ++ er.intent ++ ": " ++
              e ++ "\n")
            session1
      | .ok actionResult =>
        if actionResult.success then
          multiLoop now rest (i + 1)
            (acc ++ [{ success := true, intent := er.intent,
                       message := actionResult.message,
                       data := actionResult.data }])
            allSucc
            (combined ++ toString (i + 1) ++ ". ✅ " ++ er.intent ++ ": " ++
              jshowO actionResult.message ++ "\n")
            session1
        else
          multiLoop now rest (i + 1)
            (acc ++ [{ success := false, intent := er.intent,
                       message := some (.jstr
                         (strOr actionResult.error "Action failed")) }])
            false
            (combined ++ toString (i + 1) ++ ". ❌ " ++ er.intent ++ ": " ++
              strOr actionResult.error "Action failed" ++ "\n")
            session1

/-- `executeMultipleIntents intents userId originalText`. -/
def executeMultipleIntents (steps : List MultiStep) (session : Session)
    (now : ℤ) (originalText : String) : ProcResult × Session :=
  let (results, allSuccessful, combinedMessage, session1) :=
    multiLoop now steps 0 [] true "I've executed the following actions:\n\n"
      session
  let session2 := updateUserSession session1 originalText combinedMessage now
  ({ success := allSuccessful, intent := some "multiple_intents",
     confidence := some (9/10), response := some (.jstr combinedMessage),
     data := some (.multi
       { action := "multiple_intents", results := results,
         totalIntents := steps.length,
         successfulIntents := (results.filter (fun r => r.success)).length }) },
   session2)

/-- `parseMultipleIntents` (`response.multipleIntents && Array.isArray(...)`;
an empty array is truthy in JS). -/
def parseMultipleIntents (response : JVal) : List JVal :=
  match response.getF "multipleIntents" with
  | some (.jarr xs) => xs
  | _ => []

/-- `detectMultipleIntents`: the splitter's own NLU call (through
`extractIntent`, hence through `parseIntentResponse`), failing safe to `[]`. -/
def detectMultipleIntents (multiRaw : Except String (Option JVal)) :
    List JVal :=
  match multiRaw with
  | .error _ => []
  | .ok resp => parseMultipleIntents (parseIntentResponse resp)

/-- Destructuring `{intent, confidence, fields}` of a parsed intent object
into the shape `validateAndResolve` consumes.  A non-string `intent` value
behaves like an unknown intent everywhere it is used (`===` comparisons and
table lookups all miss), which `""` also does, so it is collapsed to `""`. -/
def toExtractionResult (v : JVal) : ExtractionResult :=
  { intent := match v.getF "intent" with
              | some (.jstr s) => s
              | _ => ""
    confidence := match v.getF "confidence" with
                  | some (.jnum q) => some q
                  | _ => none
    fields := match v.getF "fields" with
              | some (.jobj m) => m
              | _ => [] }

/-- `processMessage text userId`: one full orchestrator cycle.

Parameters modelling the collaborator round-trips, in call order:
`multiRaw` the splitter call, `stepEnvs i` the per-sub-intent environments
of a multi-intent execution, `extractRaw` the single-intent extraction call
(its `.ok` payload is the JSON handed to `parseIntentResponse`),
`resolveOutcome` the event resolution, `oracle` the action execution.
The surrounding try/catch converts any thrown error into the apology
response. -/
def processMessage (text : String) (session : Session) (now : ℤ)
    (multiRaw : Except String (Option JVal))
    (stepEnvs : ℕ → ResolveResult × Oracle)
    (extractRaw : Except String (Option JVal))
    (resolveOutcome : ResolveResult) (oracle : Oracle) :
    ProcResult × Session :=
  let multipleIntents := detectMultipleIntents multiRaw
  if 1 < multipleIntents.length then
    executeMultipleIntents
      ((multipleIntents.enum).map
        (fun p => (toExtractionResult p.2, (stepEnvs p.1).1, (stepEnvs p.1).2)))
      session now text
  else
    match extractRaw with
    | .error _ =>
        -- `extractIntent` rethrows as below; caught by processMessage
        ({ success := false, error := some "Failed to extract intent from message",
           response := some (.jstr "I apologize, but I encountered an error processing your request. Please try again.") },
         session)
    | .ok raw =>
      let er0 := parseIntentResponse raw
      let er := { toExtractionResult er0 with originalMessage := some text }
      let (validationResult, session1) :=
        validateAndResolve er session now resolveOutcome
      match executeAction validationResult oracle with
      | .error e =>
          ({ success := false, error := some e,
             response := some (.jstr "I apologize, but I encountered an error processing your request. Please try again.") },
           session1)
      | .ok actionResult =>
        let feedback := generateFeedback actionResult validationResult
        let session2 := updateUserSession session1 text feedback now
        ({ success := true, intent := some validationResult.intent,
           confidence := validationResult.confidence,
           response := some (.jstr feedback),
           data := actionResult.data.map DataPayload.jval },
         session2)

end AICal

namespace AICal

/-! ## Context continuation (`checkContextContinuation`,
`continueEventUpdate`) -/

/-- `String.toLower` (`s.map Char.toLower`), implemented directly on the
character list so that it evaluates inside the kernel. -/
def strToLower (s : String) : String := String.mk (s.data.map Char.toLower)

/-- Executable infix test on character lists. -/
def infixAux (needle : List Char) : List Char → Bool
  | [] => needle.isEmpty
  | c :: rest => needle.isPrefixOf (c :: rest) || infixAux needle rest

/-- `hay.includes(needle)`. -/
def strContains (hay needle : String) : Bool :=
  infixAux needle.data hay.data

/-- The regex class `[a-zA-Z0-9._%+-]` (email local part). -/
def isEmailLocalChar (c : Char) : Bool :=
  c.isAlphanum || c = '.' || c = '_' || c = '%' || c = '+' || c = '-'

/-- The regex class `[a-zA-Z0-9.-]` (email domain part). -/
def isEmailDomChar (c : Char) : Bool :=
  c.isAlphanum || c = '.' || c = '-'

/-- A match of `/([a-zA-Z0-9._%+-]+@[a-zA-Z0-9.-]+\.[a-zA-Z]{2,})/` starting
at the head of `cs`: a nonempty run of local chars, `@`, then a domain run
in which the greedy/backtracking engine picks the rightmost `.` followed by
at least two letters, the final letter run taken greedily. -/
def emailMatchAt (cs : List Char) : Option (List Char) :=
  let lp := cs.takeWhile isEmailLocalChar
  if lp.isEmpty then none
  else
    match cs.drop lp.length with
    | '@' :: rest =>
      let dom := rest.takeWhile isEmailDomChar
      let dots := (List.range dom.length).filter (fun p =>
        decide (1 ≤ p) && decide (dom.get? p = some '.') &&
        (match dom.get? (p + 1), dom.get? (p + 2) with
         | some a, some b => a.isAlpha && b.isAlpha
         | _, _ => false))
      match dots.max? with
      | none => none
      | some p =>
        let tail := ((dom.drop (p + 1)).takeWhile Char.isAlpha)
        some (lp ++ '@' :: (dom.take p ++ '.' :: tail))
    | _ => none

/-- Leftmost match of the email regex (`text.match(...)`, first capture). -/
def firstEmailMatch : List Char → Option (List Char)
  | [] => none
  | c :: rest =>
    match emailMatchAt (c :: rest) with
    | some m => some m
    | none => firstEmailMatch rest

/-- The regex class `[:\s]` separating a keyword from its captured value. -/
def isSepChar (c : Char) : Bool := c = ':' || isWsChar c

/-- The regex `.` (any char except line terminators). -/
def isDotChar (c : Char) : Bool := !(c = '\n' || c = '\r')

/-- A match of `/keyword[:\s]+(.+)/i`, first capture: scan for the first
case-insensitive occurrence of `keyword` followed by at least one separator
and at least one `.`-char; the capture is the greedy `.`-run after the
greedy separator run.  (The backtracking corner where `(.+)` must swallow
the final separator — keyword followed by separators and a line end — would
capture a lone separator that trims to `""`; it is not modelled and occurs
in no theorem input.) -/
def keywordCapture (keyword : String) : List Char → Option (List Char)
  | [] => none
  | c :: rest =>
    if keyword.data.isPrefixOf ((c :: rest).map Char.toLower) then
      let after := (c :: rest).drop keyword.length
      let sep := after.takeWhile isSepChar
      let cap := (after.drop sep.length).takeWhile isDotChar
      if !sep.isEmpty && !cap.isEmpty then some cap
      else keywordCapture keyword rest
    else keywordCapture keyword rest

/-- `continueEventUpdate userId eventId updateData`: the calendar update
outcome is `outcome`; on success the session context is cleared. -/
def continueEventUpdate (session : Session)
    (outcome : Except String CalendarOk) : ProcResult × Session :=
  match outcome with
  | .ok result =>
      ({ success := true, intent := some "update_event",
         confidence := some (19/20), response := some (.jstr result.message),
         data := some (.jval (.jobj [("action", .jstr "update_event"),
                                     ("event", result.event)])) },
       { session with context := none })
  | .error e => ({ success := false, error := some e }, session)

/-- `checkContextContinuation text userId`: `calUpdate id patch` models the
`calendarService.updateEvent(eventId, updateData)` round-trip issued by
`continueEventUpdate` for that event id and patch. -/
def checkContextContinuation (text : String) (session : Session)
    (calUpdate : String → UpdateData → Except String CalendarOk) :
    Option ProcResult × Session :=
  match session.context with
  | none => (none, session)
  | some context =>
    if ¬ context.active then (none, session)
    else
      let lowerText := strToLower text
      let inCtx := context.type = "event_update" ∧ context.eventId ≠ ""
      -- email addition
      let emailStep : Option (ProcResult × Session) :=
        if inCtx ∧ (strContains lowerText "email" ∨ strContains lowerText "@" ∨
                    strContains lowerText "add") then
          match firstEmailMatch text.data with
          | some em =>
              some (continueEventUpdate session
                (calUpdate context.eventId
                  { attendees := some [String.mk em] }))
          | none => none
        else none
      match emailStep with
      | some r => (some r.1, r.2)
      | none =>
        -- location continuation
        let locStep : Option (ProcResult × Session) :=
          if inCtx ∧ (strContains lowerText "location" ∨
                      strContains lowerText "where") then
            match (keywordCapture "location" text.data).orElse
                (fun _ => keywordCapture "where" text.data) with
            | some cap =>
                some (continueEventUpdate session
                  (calUpdate context.eventId
                    { location := some (strTrim (String.mk cap)) }))
            | none => none
          else none
        match locStep with
        | some r => (some r.1, r.2)
        | none =>
          -- description continuation
          let descStep : Option (ProcResult × Session) :=
            if inCtx ∧ (strContains lowerText "description" ∨
                        strContains lowerText "note") then
              match (keywordCapture "description" text.data).orElse
                  (fun _ => keywordCapture "note" text.data) with
              | some cap =>
                  some (continueEventUpdate session
                    (calUpdate context.eventId
                      { description := some (strTrim (String.mk cap)) }))
              | none => none
            else none
          match descStep with
          | some r => (some r.1, r.2)
          | none => (none, session)

end AICal

namespace AICal

/-- The full turn stream produced by a sequence of processed messages
(each processed message appends a user turn and an assistant turn). -/
def turnStream : List (String × String × ℤ) → List Turn
  | [] => []
  | (m, r, t) :: ps =>
      ⟨"user", m, t⟩ :: ⟨"assistant", r, t⟩ :: turnStream ps

/-- The last `n` elements of a list (`Array.prototype.slice(-n)`). -/
def lastN (n : ℕ) (l : List Turn) : List Turn := l.drop (l.length - n)

/-- The session after processing a sequence of messages starting from a
fresh session (each element: user message, assistant response, timestamp). -/
def sessionAfter (pairs : List (String × String × ℤ)) : Session :=
  pairs.foldl (fun s p => updateUserSession s p.1 p.2.1 p.2.2) (freshSession 0)

/-! ## Claim theorems -/

/-- **C1** — For every raw NLU intent-extraction response (that is not a
multiple-intent passthrough): the parsed confidence is first clamped to
`[0,1]`; whenever the clamped confidence is strictly below the 0.7
threshold, the returned extraction result is the `general_chat` object with
confidence 0.5 and an empty field map, regardless of the nominally extracted
intent; and a response containing no parseable JSON object, or one with an
invalid structure, yields that same fallback rather than an error. -/
theorem C1_lowConfidence_downgrades_to_general_chat (resp : Option JVal) :
    (fallbackIntentResult.getF "intent" = some (.jstr "general_chat") ∧
     fallbackIntentResult.getF "confidence" = some (.jnum (1/2)) ∧
     fallbackIntentResult.getF "fields" = some (.jobj [])) ∧
    (resp = none → parseIntentResponse resp = fallbackIntentResult) ∧
    (∀ parsed, resp = some parsed →
      ¬ (JVal.truthyO (parsed.getF "multipleIntents") = true ∧
         JVal.isArrayO (parsed.getF "multipleIntents") = true) →
      ((¬ JVal.truthyO (parsed.getF "intent") = true ∨
        ¬ JVal.isNumberO (parsed.getF "confidence") = true ∨
        ¬ JVal.truthyO (parsed.getF "fields") = true) →
          parseIntentResponse resp = fallbackIntentResult) ∧
      (JVal.truthyO (parsed.getF "intent") = true →
       JVal.isNumberO (parsed.getF "confidence") = true →
       JVal.truthyO (parsed.getF "fields") = true →
        (0 : ℚ) ≤ max 0 (min 1 (JVal.numO (parsed.getF "confidence"))) ∧
        max 0 (min 1 (JVal.numO (parsed.getF "confidence"))) ≤ 1 ∧
        (max 0 (min 1 (JVal.numO (parsed.getF "confidence"))) <
            CONFIDENCE_THRESHOLD →
          parseIntentResponse resp = fallbackIntentResult) ∧
        (CONFIDENCE_THRESHOLD ≤
            max 0 (min 1 (JVal.numO (parsed.getF "confidence"))) →
          parseIntentResponse resp = parsed.setF "confidence"
            (.jnum (max 0 (min 1 (JVal.numO (parsed.getF "confidence")))))))) := by
  refine ⟨⟨rfl, rfl, rfl⟩, ?_, ?_⟩
  · rintro rfl; rfl
  rintro parsed rfl hmulti
  constructor
  · intro hinvalid
    simp only [parseIntentResponse]
    rw [if_neg hmulti, if_pos hinvalid]
  · intro h1 h2 h3
    have hvalid : ¬ (¬ JVal.truthyO (parsed.getF "intent") = true ∨
        ¬ JVal.isNumberO (parsed.getF "confidence") = true ∨
        ¬ JVal.truthyO (parsed.getF "fields") = true) := by
      push_neg
      exact ⟨h1, h2, h3⟩
    refine ⟨le_max_left 0 _, max_le (by norm_num) (min_le_left 1 _), ?_, ?_⟩
    · intro hlt
      simp only [parseIntentResponse]
      rw [if_neg hmulti, if_neg hvalid, if_pos hlt]
    · intro hge
      simp only [parseIntentResponse]
      rw [if_neg hmulti, if_neg hvalid, if_neg (not_lt.mpr hge)]

/-- **C1 witness** — a response nominally extracting `cancel_event` at
confidence 0.4 is downgraded to the `general_chat`/0.5 fallback. -/
theorem C1_witness :
    parseIntentResponse (some (.jobj [("intent", .jstr "cancel_event"),
        ("confidence", .jnum (2/5)), ("fields", .jobj [])])) =
      fallbackIntentResult :=
  (((C1_lowConfidence_downgrades_to_general_chat
      (some (.jobj [("intent", .jstr "cancel_event"),
        ("confidence", .jnum (2/5)), ("fields", .jobj [])]))).2.2
    _ rfl (by decide)).2 (by decide) (by decide) (by decide)).2.2.1 (by
      have h : JVal.numO ((JVal.jobj [("intent", JVal.jstr "cancel_event"),
          ("confidence", JVal.jnum (2/5)),
          ("fields", JVal.jobj [])]).getF "confidence") = 2/5 := rfl
      rw [h, min_eq_right (by norm_num : (2/5 : ℚ) ≤ 1),
        max_eq_right (by norm_num : (0 : ℚ) ≤ 2/5)]
      norm_num [CONFIDENCE_THRESHOLD])

end AICal

namespace AICal

/-- Setting a key on an object makes that key read back the new value. -/
theorem getF_setF (m : List (String × JVal)) (k : String) (w : JVal) :
    ((JVal.jobj m).setF k w).getF k = some w := by
  simp only [JVal.setF]
  by_cases hany : m.any (fun p => p.1 = k)
  · rw [if_pos hany]
    simp only [JVal.getF]
    induction m with
    | nil => simp at hany
    | cons a t ih =>
      by_cases h : a.1 = k
      · simp [List.find?, h]
      · have ht : t.any (fun p => p.1 = k) := by
          simpa [List.any_cons, h] using hany
        simpa [List.find?, h] using ih ht
  · rw [if_neg hany]
    simp only [JVal.getF]
    rw [List.find?_append]
    have hnone : m.find? (fun p => decide (p.1 = k)) = none := by
      rw [List.find?_eq_none]
      intro p hp hk
      exact hany (List.any_eq_true.mpr ⟨p, hp, hk⟩)
    simp [hnone, List.find?]

/-- **C2** — For every NLU match response during event resolution: if the
response claims success with an event whose id is not (strictly equal to the
id of) any member of the fetched candidate set, the parsed resolution result
is the failure object (`success:false`, `event:null`, `confidence:0`); and
whenever the result is successful and carries an event, that event is the
stored candidate object whose id matches the collaborator-claimed id, taken
from the fetched set. -/
theorem C2_hallucinated_ids_rejected (resp : Option JVal)
    (calendarEvents : List JVal) :
    ((searchFailure "AI suggested event not found in calendar").getF "success"
        = some (.jbool false) ∧
     (searchFailure "AI suggested event not found in calendar").getF "event"
        = some .jnull ∧
     (searchFailure "AI suggested event not found in calendar").getF "confidence"
        = some (.jnum 0)) ∧
    (∀ parsed, resp = some parsed →
      JVal.isBoolO (parsed.getF "success") = true →
      JVal.isNumberO (parsed.getF "confidence") = true →
      JVal.truthyO (parsed.getF "success") = true →
      JVal.truthyO (parsed.getF "event") = true →
      (∀ e ∈ calendarEvents,
        JVal.strictEqO (e.getF "id")
          ((parsed.getF "event").bind (fun ev => ev.getF "id")) = false) →
      parseEventSearchResponse resp calendarEvents =
        searchFailure "AI suggested event not found in calendar") ∧
    (∀ ev,
      JVal.truthyO ((parseEventSearchResponse resp calendarEvents).getF
        "success") = true →
      (parseEventSearchResponse resp calendarEvents).getF "event" = some ev →
      ev.truthy = true →
      ev ∈ calendarEvents ∧
      ∃ parsed, resp = some parsed ∧
        JVal.strictEqO (ev.getF "id")
          ((parsed.getF "event").bind (fun e2 => e2.getF "id")) = true) := by
  refine ⟨⟨rfl, rfl, rfl⟩, ?_, ?_⟩
  · rintro parsed rfl hb hn hs he hall
    simp only [parseEventSearchResponse]
    rw [if_neg (by simp [hb, hn]), if_pos ⟨hs, he⟩]
    have hnone : calendarEvents.find?
        (fun e => JVal.strictEqO (e.getF "id")
          ((parsed.getF "event").bind (fun ev => ev.getF "id"))) = none := by
      rw [List.find?_eq_none]
      intro e hmem
      simp [hall e hmem]
    rw [hnone]
  · intro ev
    match hr : resp with
    | none =>
      intro hs hev _
      simp only [parseEventSearchResponse] at hs hev
      rw [show (searchFailure "Could not parse AI response").getF "success"
          = some (.jbool false) from rfl] at hs
      simp [JVal.truthyO, JVal.truthy] at hs
    | some parsed =>
      intro hs hev htr
      simp only [parseEventSearchResponse] at hs hev
      by_cases hval : ¬ JVal.isBoolO (parsed.getF "success") = true ∨
          ¬ JVal.isNumberO (parsed.getF "confidence") = true
      · rw [if_pos hval] at hs
        rw [show (searchFailure "Invalid AI response format").getF "success"
            = some (.jbool false) from rfl] at hs
        simp [JVal.truthyO, JVal.truthy] at hs
      · rw [if_neg hval] at hs hev
        by_cases hcond : JVal.truthyO (parsed.getF "success") = true ∧
            JVal.truthyO (parsed.getF "event") = true
        · rw [if_pos hcond] at hs hev
          cases hfind : calendarEvents.find?
              (fun e => JVal.strictEqO (e.getF "id")
                ((parsed.getF "event").bind (fun e2 => e2.getF "id"))) with
          | none =>
            rw [hfind] at hs
            rw [show (searchFailure "AI suggested event not found in calendar").getF
                "success" = some (.jbool false) from rfl] at hs
            simp [JVal.truthyO, JVal.truthy] at hs
          | some foundEvent =>
            rw [hfind] at hev
            -- `parsed` is an object, since `getF "success"` is defined on it
            match parsed, hcond with
            | .jobj m, hcond =>
              rw [getF_setF] at hev
              have hev' : foundEvent = ev := by
                simpa using hev
              subst hev'
              refine ⟨List.mem_of_find?_eq_some hfind, .jobj m, rfl, ?_⟩
              have := List.find?_some hfind
              simpa using this
        · rw [if_neg hcond] at hs hev
          -- `else parsed`: success is truthy, so the event must be falsy
          have hfalse : JVal.truthyO (parsed.getF "event") = false := by
            rcases Bool.eq_false_or_eq_true
                (JVal.truthyO (parsed.getF "event")) with h | h
            · exact absurd ⟨hs, h⟩ hcond
            · exact h
          rw [hev] at hfalse
          simp [JVal.truthyO] at hfalse
          exact absurd htr (by simp [hfalse])

/-- **C2 witness** — a response claiming a match with unknown id `evt_999`
against a candidate set containing only `evt_1` parses to the not-found
failure object. -/
theorem C2_witness :
    parseEventSearchResponse
      (some (.jobj [("success", .jbool true),
        ("event", .jobj [("id", .jstr "evt_999")]),
        ("confidence", .jnum (9/10)), ("message", .jstr "match")]))
      [.jobj [("id", .jstr "evt_1"), ("summary", .jstr "Team sync")]] =
      searchFailure "AI suggested event not found in calendar" :=
  ((C2_hallucinated_ids_rejected _ _).2.1 _ rfl (by decide) (by decide)
    (by decide) (by decide) (by decide))

end AICal

namespace AICal

/-- One `updateUserSession` step on a history that is the 20-suffix of a
stream extends the stream and re-trims. -/
theorem updateUserSession_lastN (l : List Turn) (s : Session) (m r : String)
    (t : ℤ) (h : s.conversationHistory = lastN 20 l) :
    (updateUserSession s m r t).conversationHistory =
      lastN 20 (l ++ [⟨"user", m, t⟩, ⟨"assistant", r, t⟩]) := by
  have hlen : (lastN 20 l).length = l.length - (l.length - 20) := by
    simp [lastN]
  simp only [updateUserSession, h]
  by_cases hsmall : l.length ≤ 18
  · have h1 : lastN 20 l = l := by
      simp [lastN, Nat.sub_eq_zero_of_le (by omega : l.length ≤ 20)]
    have h2 : ¬ 20 < (l ++ [(⟨"user", m, t⟩ : Turn), ⟨"assistant", r, t⟩]).length := by
      simp only [List.length_append, List.length_cons, List.length_nil]
      omega
    rw [h1, if_neg h2]
    simp only [lastN, List.length_append, List.length_cons, List.length_nil]
    have h3 : l.length + (0 + 1 + 1) - 20 = 0 := by omega
    have h4 : l.length + 2 - 20 = 0 := by omega
    simp only [h3, h4, List.drop_zero]
  · have hbig : 19 ≤ l.length := by omega
    have hlen2 : (lastN 20 l ++ [(⟨"user", m, t⟩ : Turn), ⟨"assistant", r, t⟩]).length =
        (l.length - (l.length - 20)) + 2 := by
      simp [hlen]
    have hgt : 20 < (lastN 20 l ++ [(⟨"user", m, t⟩ : Turn), ⟨"assistant", r, t⟩]).length := by
      rw [hlen2]; omega
    rw [if_pos hgt, hlen2]
    have ha : (l.length - (l.length - 20) + 2 - 20) ≤ (lastN 20 l).length := by
      rw [hlen]; omega
    rw [List.drop_append_of_le_length ha]
    simp only [lastN, List.drop_drop, List.length_append, List.length_cons,
      List.length_nil]
    rw [List.drop_append_of_le_length (by omega : l.length + (0 + 1 + 1) - 20 ≤ l.length)]
    have hidx : l.length - 20 + (l.length - (l.length - 20) + 2 - 20) =
        l.length + (0 + 1 + 1) - 20 := by omega
    rw [hidx]

/-- The fold invariant behind the 20-turn cap. -/
theorem sessionAfter_hist (pairs : List (String × String × ℤ)) :
    ∀ (s : Session) (l : List Turn), s.conversationHistory = lastN 20 l →
      (pairs.foldl (fun s p => updateUserSession s p.1 p.2.1 p.2.2)
        s).conversationHistory = lastN 20 (l ++ turnStream pairs) := by
  induction pairs with
  | nil => intro s l h; simpa [turnStream] using h
  | cons p ps ih =>
    intro s l h
    obtain ⟨m, r, t⟩ := p
    have step := updateUserSession_lastN l s m r t h
    have h2 := ih (updateUserSession s m r t)
      (l ++ [(⟨"user", m, t⟩ : Turn), ⟨"assistant", r, t⟩]) step
    simp only [List.foldl_cons, turnStream]
    rw [h2, List.append_assoc]
    rfl

/-- **C4** — For every sequence of processed messages, the conversation
history is exactly the last-20-turns suffix of the full turn stream: it
never exceeds 20 turns, evicts oldest turns first, and preserves the
insertion order of the surviving turns. -/
theorem C4_history_capped_at_20_FIFO (pairs : List (String × String × ℤ)) :
    (sessionAfter pairs).conversationHistory = lastN 20 (turnStream pairs) ∧
    (sessionAfter pairs).conversationHistory.length ≤ 20 ∧
    ∃ dropped, dropped ++ (sessionAfter pairs).conversationHistory =
      turnStream pairs := by
  have h := sessionAfter_hist pairs (freshSession 0) [] rfl
  have h0 : (sessionAfter pairs).conversationHistory = lastN 20 (turnStream pairs) := by
    simpa [sessionAfter] using h
  refine ⟨h0, ?_, ?_⟩
  · rw [h0]
    simp only [lastN, List.length_drop]
    omega
  · refine ⟨(turnStream pairs).take ((turnStream pairs).length - 20), ?_⟩
    rw [h0]
    simp [lastN]

end AICal

namespace AICal

/-- An infix stays an infix after appending on the right. -/
theorem infix_appendR {α : Type} {l₁ l₂ : List α} (h : l₁ <:+: l₂)
    (l₃ : List α) : l₁ <:+: l₂ ++ l₃ :=
  h.trans ⟨[], l₃, by simp⟩

/-- An infix stays an infix after appending on the left. -/
theorem infix_appendL {α : Type} (l₃ : List α) {l₁ l₂ : List α}
    (h : l₁ <:+: l₂) : l₁ <:+: l₃ ++ l₂ :=
  h.trans ⟨l₃, [], by simp⟩

/-- Every element of a list is a substring of its `join(", ")`. -/
theorem mem_joinComma : ∀ (l : List String) (s : String), s ∈ l →
    s.data <:+: (joinComma l).data
  | [x], s, h => by
      simp only [List.mem_singleton] at h
      subst h
      exact List.infix_refl _
  | x :: y :: t, s, h => by
      simp only [joinComma, String.data_append, List.append_assoc]
      rcases List.mem_cons.mp h with rfl | h2
      · exact infix_appendR (List.infix_refl _) _
      · exact infix_appendL _ (infix_appendL _ (mem_joinComma (y :: t) s h2))

/-- The clarification message names every missing field (by its human
label) and the blocked action. -/
theorem clarificationMessage_names (intent : String) (missing : List String)
    (fields : List (String × JVal)) :
    (∀ f ∈ missing, (fieldLabel f).data <:+:
      (generateClarificationMessage intent missing fields).data) ∧
    (getIntentAction intent).data <:+:
      (generateClarificationMessage intent missing fields).data := by
  simp only [generateClarificationMessage]
  match hm : missing.map fieldLabel with
  | [n] =>
    constructor
    · intro f hf
      have : fieldLabel f ∈ missing.map fieldLabel := List.mem_map_of_mem _ hf
      rw [hm, List.mem_singleton] at this
      rw [this]
      simp only [String.data_append, List.append_assoc]
      exact infix_appendL _ (infix_appendR (List.infix_refl _) _)
    · simp only [String.data_append, List.append_assoc]
      exact infix_appendL _ (infix_appendL _ (infix_appendL _
        (infix_appendR (List.infix_refl _) _)))
  | [] =>
    constructor
    · intro f hf
      have : fieldLabel f ∈ missing.map fieldLabel := List.mem_map_of_mem _ hf
      simp [hm] at this
    · simp only [String.data_append, List.append_assoc]
      exact infix_appendL _ (infix_appendR (List.infix_refl _) _)
  | n₁ :: n₂ :: ns =>
    constructor
    · intro f hf
      have hmem : fieldLabel f ∈ missing.map fieldLabel :=
        List.mem_map_of_mem _ hf
      rw [hm] at hmem
      have hj : (fieldLabel f).data <:+: (joinComma (n₁ :: n₂ :: ns)).data :=
        mem_joinComma _ _ hmem
      simp only [String.data_append, List.append_assoc]
      exact infix_appendL _ (infix_appendL _ (infix_appendL _
        (infix_appendR hj _)))
    · simp only [String.data_append, List.append_assoc]
      exact infix_appendL _ (infix_appendR (List.infix_refl _) _)

/-- **C5** — For every extracted intent other than `general_chat` with at
least one required field missing from its field map, validation returns
`requiresAction = false` with a clarification message that names every
missing field and the blocked action (singular wording for one missing
field, list wording for several), and stores a
`PendingIntent {intent, fields, missingFields, timestamp}` on the session;
in particular `create_event` extracted with only a title yields
`missingFields = ["date", "time"]`. -/
theorem C5_missing_fields_clarify_and_pend (er : ExtractionResult)
    (session : Session) (now : ℤ) (ro : ResolveResult)
    (missing : List String)
    (hintent : er.intent ≠ "general_chat")
    (hm : missing = (REQUIRED_FIELDS er.intent).filter
      (fun field => ¬ JVal.truthyO (fGet er.fields field)))
    (hne : missing ≠ []) :
    ((validateAndResolve er session now ro).1.requiresAction = false ∧
     (validateAndResolve er session now ro).1.needsClarification = true ∧
     (validateAndResolve er session now ro).1.missingFields = some missing ∧
     (validateAndResolve er session now ro).1.clarificationMessage =
       some (.jstr (generateClarificationMessage er.intent missing er.fields)) ∧
     (validateAndResolve er session now ro).2.pendingIntent =
       some ⟨er.intent, er.fields, missing, now⟩) ∧
    (∀ f ∈ missing, (fieldLabel f).data <:+:
      (generateClarificationMessage er.intent missing er.fields).data) ∧
    ((getIntentAction er.intent).data <:+:
      (generateClarificationMessage er.intent missing er.fields).data) ∧
    (∀ f, missing = [f] →
      generateClarificationMessage er.intent missing er.fields =
        "I need the " ++ fieldLabel f ++ " to " ++ getIntentAction er.intent ++
          ". Please provide it.") ∧
    (2 ≤ missing.length →
      generateClarificationMessage er.intent missing er.fields =
        "I need the following information to " ++ getIntentAction er.intent ++
          ": " ++ joinComma (missing.map fieldLabel) ++
          ". Please provide these details.") ∧
    ((REQUIRED_FIELDS "create_event").filter
      (fun field => ¬ JVal.truthyO (fGet [("title", JVal.jstr "Sync")] field))
        = ["date", "time"]) := by
  have hcl := clarificationMessage_names er.intent missing er.fields
  refine ⟨?_, hcl.1, hcl.2, ?_, ?_, by decide⟩
  · simp only [validateAndResolve]
    rw [if_neg hintent, if_pos (by rw [← hm]; exact hne)]
    rw [← hm]
    exact ⟨rfl, rfl, rfl, rfl, rfl⟩
  · rintro f rfl
    simp [generateClarificationMessage, joinComma]
  · intro h2
    simp only [generateClarificationMessage]
    match hmm : missing.map fieldLabel with
    | [] =>
      exfalso
      have hlen : missing.length = 0 := by
        have := congrArg List.length hmm
        simpa using this
      omega
    | [n] =>
      exfalso
      have hlen : missing.length = 1 := by
        have := congrArg List.length hmm
        simpa using this
      omega
    | n₁ :: n₂ :: ns => rfl

/-- **C5 witness** — `create_event` extracted with only `{title:"Sync"}`
yields a clarification with `missingFields = ["date","time"]`, the pending
intent stored, and a message naming both `date` and `time`. -/
theorem C5_witness :
    (validateAndResolve { intent := "create_event", fields := [("title", JVal.jstr "Sync")] } (freshSession 0) 0 { success := false }).1.requiresAction = false ∧
    (validateAndResolve { intent := "create_event", fields := [("title", JVal.jstr "Sync")] } (freshSession 0) 0 { success := false }).1.missingFields =
        some ["date", "time"] ∧
    (validateAndResolve { intent := "create_event", fields := [("title", JVal.jstr "Sync")] } (freshSession 0) 0 { success := false }).2.pendingIntent =
        some (PendingIntent.mk "create_event" [("title", JVal.jstr "Sync")]
          ["date", "time"] 0) ∧
    ("date").data <:+: (generateClarificationMessage "create_event"
      ["date", "time"] [("title", JVal.jstr "Sync")]).data ∧
    ("time").data <:+: (generateClarificationMessage "create_event"
      ["date", "time"] [("title", JVal.jstr "Sync")]).data := by
  have h := C5_missing_fields_clarify_and_pend { intent := "create_event", fields := [("title", JVal.jstr "Sync")] } (freshSession 0) 0 { success := false } ["date", "time"] (by decide) (by decide) (by decide)
  refine ⟨h.1.1, h.1.2.2.1, h.1.2.2.2.2, ?_, ?_⟩
  · have := h.2.1 "date" (by decide)
    simpa [fieldLabel] using this
  · have := h.2.1 "time" (by decide)
    simpa [fieldLabel] using this

end AICal

namespace AICal

/-- Peeling one append off a left-associated prefix. -/
theorem suffix_extend {x y z : String} (h : ∃ T, z = (x ++ y) ++ T) :
    ∃ T, z = x ++ T := by
  obtain ⟨T, hT⟩ := h
  exact ⟨y ++ T, by rw [hT, String.append_assoc]⟩

/-- The loop of `executeMultipleIntents` appends exactly one result per
sub-intent, in order, carrying each sub-intent name; `allSuccessful` ends up
as the conjunction over the new results, and `combinedMessage` only grows. -/
theorem multiLoop_spec (now : ℤ) :
    ∀ (steps : List MultiStep) (i : ℕ) (acc : List StepResult)
      (allSucc : Bool) (combined : String) (session : Session),
      ∃ L C S, multiLoop now steps i acc allSucc combined session =
        (acc ++ L, allSucc && L.all (fun r => r.success), C, S) ∧
        L.length = steps.length ∧
        (∀ j (h : j < steps.length) (h2 : j < L.length),
          (L.get ⟨j, h2⟩).intent = ((steps.get ⟨j, h⟩).1).intent) ∧
        (∃ T, C = combined ++ T) := by
  intro steps
  induction steps with
  | nil =>
    intro i acc allSucc combined session
    refine ⟨[], combined, session, ?_, rfl, ?_, "", by simp⟩
    · simp [multiLoop]
    · intro j h
      exact absurd h (Nat.not_lt_zero j)
  | cons step rest ih =>
    intro i acc allSucc combined session
    rcases hval : validateAndResolve step.1 session now step.2.1 with ⟨vres, s1⟩
    by_cases hcl : vres.needsClarification = true
    · obtain ⟨L', C', S', hEq, hLen, hInt, hC⟩ := ih (i + 1)
        (acc ++ [{ success := false, intent := step.1.intent,
                   message := vres.clarificationMessage }]) false
        (combined ++ toString (i + 1) ++ ". ❌ " ++ step.1.intent ++ ": " ++
          jshowO vres.clarificationMessage ++ "\n") s1
      refine ⟨{ success := false, intent := step.1.intent,
                message := vres.clarificationMessage } :: L', C', S', ?_, ?_, ?_,
        suffix_extend (suffix_extend (suffix_extend (suffix_extend
          (suffix_extend (suffix_extend hC)))))⟩
      · simp only [multiLoop, hval, hcl, if_true]
        rw [hEq]
        simp [List.all_cons]
      · simp [hLen]
      · intro j h h2
        match j with
        | 0 => rfl
        | Nat.succ j' =>
          exact hInt j' (by simpa using h) (by simpa using h2)
    · rw [Bool.not_eq_true] at hcl
      cases hact : executeAction vres step.2.2 with
      | error e =>
        obtain ⟨L', C', S', hEq, hLen, hInt, hC⟩ := ih (i + 1)
          (acc ++ [{ success := false, intent := step.1.intent,
                     message := some (.jstr e) }]) false
          (combined ++ toString (i + 1) ++ ". ❌ " ++ step.1.intent ++ ": " ++
            e ++ "\n") s1
        refine ⟨{ success := false, intent := step.1.intent,
                  message := some (.jstr e) } :: L', C', S', ?_, ?_, ?_,
          suffix_extend (suffix_extend (suffix_extend (suffix_extend
            (suffix_extend (suffix_extend hC)))))⟩
        · simp only [multiLoop, hval, hcl, hact, if_false, Bool.false_eq_true]
          rw [hEq]
          simp [List.all_cons]
        · simp [hLen]
        · intro j h h2
          match j with
          | 0 => rfl
          | Nat.succ j' =>
            exact hInt j' (by simpa using h) (by simpa using h2)
      | ok actionResult =>
        by_cases hsucc : actionResult.success = true
        · obtain ⟨L', C', S', hEq, hLen, hInt, hC⟩ := ih (i + 1)
            (acc ++ [{ success := true, intent := step.1.intent,
                       message := actionResult.message,
                       data := actionResult.data }]) allSucc
            (combined ++ toString (i + 1) ++ ". ✅ " ++ step.1.intent ++ ": " ++
              jshowO actionResult.message ++ "\n") s1
          refine ⟨{ success := true, intent := step.1.intent,
                    message := actionResult.message,
                    data := actionResult.data } :: L', C', S', ?_, ?_, ?_,
            suffix_extend (suffix_extend (suffix_extend (suffix_extend
              (suffix_extend (suffix_extend hC)))))⟩
          · simp only [multiLoop, hval, hcl, hact, hsucc, if_true,
              Bool.false_eq_true, if_false]
            rw [hEq]
            simp [List.all_cons]
          · simp [hLen]
          · intro j h h2
            match j with
            | 0 => rfl
            | Nat.succ j' =>
              exact hInt j' (by simpa using h) (by simpa using h2)
        · rw [Bool.not_eq_true] at hsucc
          obtain ⟨L', C', S', hEq, hLen, hInt, hC⟩ := ih (i + 1)
            (acc ++ [{ success := false, intent := step.1.intent,
                       message := some (.jstr
                         (strOr actionResult.error "Action failed")) }]) false
            (combined ++ toString (i + 1) ++ ". ❌ " ++ step.1.intent ++ ": " ++
              strOr actionResult.error "Action failed" ++ "\n") s1
          refine ⟨{ success := false, intent := step.1.intent,
                    message := some (.jstr
                      (strOr actionResult.error "Action failed")) } :: L', C',
                  S', ?_, ?_, ?_,
            suffix_extend (suffix_extend (suffix_extend (suffix_extend
              (suffix_extend (suffix_extend hC)))))⟩
          · simp only [multiLoop, hval, hcl, hact, hsucc, if_false,
              Bool.false_eq_true]
            rw [hEq]
            simp [List.all_cons]
          · simp [hLen]
          · intro j h h2
            match j with
            | 0 => rfl
            | Nat.succ j' =>
              exact hInt j' (by simpa using h) (by simpa using h2)

/-- **C3** — For every compound message whose splitter output contains
`N ≥ 2` sub-intents, the sub-intents are validated and executed
sequentially in extraction order (one result per sub-intent, position by
position, regardless of earlier clarifications or failures); the aggregate
report has `totalIntents = N`, `successfulIntents` equal to the number of
sub-intents whose individual result was success, and overall success true
iff every sub-intent succeeded. -/
theorem C3_multi_intent_best_effort (steps : List MultiStep)
    (session : Session) (now : ℤ) (originalText : String)
    (hN : 2 ≤ steps.length) :
    ∃ md : MultiData,
      (executeMultipleIntents steps session now originalText).1.data =
        some (.multi md) ∧
      (executeMultipleIntents steps session now originalText).1.intent =
        some "multiple_intents" ∧
      md.totalIntents = steps.length ∧
      md.results.length = steps.length ∧
      (∀ j (h : j < steps.length) (h2 : j < md.results.length),
        (md.results.get ⟨j, h2⟩).intent = ((steps.get ⟨j, h⟩).1).intent) ∧
      md.successfulIntents =
        (md.results.filter (fun r => r.success)).length ∧
      ((executeMultipleIntents steps session now originalText).1.success = true
        ↔ ∀ r ∈ md.results, r.success = true) := by
  obtain ⟨L, C, S, hEq, hLen, hInt, hC⟩ :=
    multiLoop_spec now steps 0 [] true
      "I've executed the following actions:\n\n" session
  refine ⟨{ action := "multiple_intents", results := L,
            totalIntents := steps.length,
            successfulIntents := (L.filter (fun r => r.success)).length },
          ?_, ?_, rfl, hLen, hInt, rfl, ?_⟩
  · simp only [executeMultipleIntents, hEq, List.nil_append]
  · simp only [executeMultipleIntents, hEq, List.nil_append]
  · simp only [executeMultipleIntents, hEq, List.nil_append, Bool.true_and]
    exact List.all_eq_true

/-- **C3 witness** — a two-step compound request (a `general_chat` step and
an unknown-intent step) yields a report with `totalIntents = 2`, one result
per step in order, `successfulIntents = 1`, and overall success `false`. -/
theorem C3_witness :
    ∃ md : MultiData,
      (executeMultipleIntents [({ intent := "general_chat" }, { success := false }, { createOutcome := .error "x", updateOutcome := .error "x", cancelOutcome := .error "x", getEventOutcome := .error "x", notesOutcome := .error "x", followupOutcome := .error "x", searchOutcome := .error "x", listGenOutcome := .error "x" }), ({ intent := "bogus_intent" }, { success := false }, { createOutcome := .error "x", updateOutcome := .error "x", cancelOutcome := .error "x", getEventOutcome := .error "x", notesOutcome := .error "x", followupOutcome := .error "x", searchOutcome := .error "x", listGenOutcome := .error "x" })] (freshSession 0) 0 "hi").1.data = some (.multi md) ∧
      md.totalIntents = 2 ∧
      md.results.length = 2 := by
  obtain ⟨md, h1, h2, h3, h4, h5, h6, h7⟩ := C3_multi_intent_best_effort
    [({ intent := "general_chat" }, { success := false }, { createOutcome := .error "x", updateOutcome := .error "x", cancelOutcome := .error "x", getEventOutcome := .error "x", notesOutcome := .error "x", followupOutcome := .error "x", searchOutcome := .error "x", listGenOutcome := .error "x" }), ({ intent := "bogus_intent" }, { success := false }, { createOutcome := .error "x", updateOutcome := .error "x", cancelOutcome := .error "x", getEventOutcome := .error "x", notesOutcome := .error "x", followupOutcome := .error "x", searchOutcome := .error "x", listGenOutcome := .error "x" })]
    (freshSession 0) 0 "hi" (by decide)
  exact ⟨md, h1, h3, h4⟩

end AICal

namespace AICal

/-- Appending to a nonempty string stays nonempty. -/
theorem string_append_ne (a b : String) (ha : a ≠ "") : a ++ b ≠ "" := by
  intro h
  apply ha
  have h2 := congrArg String.data h
  simp only [String.data_append] at h2
  have h3 := (List.append_eq_nil.mp (by simpa using h2)).1
  cases a
  simpa using congrArg String.mk h3

/-- `x || d` is nonempty when the default is. -/
theorem strOr_ne (x : Option String) (d : String) (hd : d ≠ "") :
    strOr x d ≠ "" := by
  cases x with
  | none => simpa [strOr] using hd
  | some s =>
    by_cases hs : s = ""
    · simpa [strOr, hs] using hd
    · simpa [strOr, hs] using hs

/-- Clarification messages are never empty. -/
theorem generateClarificationMessage_ne (intent : String)
    (missing : List String) (fields : List (String × JVal)) :
    generateClarificationMessage intent missing fields ≠ "" := by
  simp only [generateClarificationMessage]
  match missing.map fieldLabel with
  | [n] =>
    exact string_append_ne _ _ (string_append_ne _ _ (string_append_ne _ _
      (string_append_ne _ _ (by decide))))
  | [] =>
    exact string_append_ne _ _ (string_append_ne _ _ (string_append_ne _ _
      (string_append_ne _ _ (by decide))))
  | n₁ :: n₂ :: ns =>
    exact string_append_ne _ _ (string_append_ne _ _ (string_append_ne _ _
      (string_append_ne _ _ (by decide))))

/-- `resolveEventIdentifier` either succeeds or carries a nonempty string
message (used downstream as the clarification). -/
theorem resolveEventIdentifier_message_shape (identifier : String)
    (sO : Except String (List JVal)) (aiO : Except String (Option JVal)) :
    (resolveEventIdentifier identifier sO aiO).success = true ∨
    ∃ m, (resolveEventIdentifier identifier sO aiO).message =
        some (JVal.jstr m) ∧ m ≠ "" := by
  cases sO with
  | error e => exact Or.inr ⟨_, rfl, by decide⟩
  | ok events =>
    simp only [resolveEventIdentifier]
    by_cases hempty : events.isEmpty
    · rw [if_pos hempty]
      exact Or.inr ⟨_, rfl, by decide⟩
    · rw [if_neg hempty]
      cases aiO with
      | error e => exact Or.inr ⟨_, rfl, by decide⟩
      | ok resp =>
        dsimp only
        by_cases hfound :
            JVal.truthyO ((parseEventSearchResponse resp events).getF
              "success") = true ∧
            JVal.truthyO ((parseEventSearchResponse resp events).getF
              "event") = true
        · rw [if_pos hfound]
          exact Or.inl rfl
        · rw [if_neg hfound]
          refine Or.inr ⟨_, rfl, ?_⟩
          exact string_append_ne _ _ (string_append_ne _ _ (by decide))

/-- Every clarification message attached by `validateAndResolve` is a
nonempty string, provided the resolver outcome satisfies the same shape. -/
theorem validateAndResolve_clar_shape (er : ExtractionResult)
    (session : Session) (now : ℤ) (ro : ResolveResult)
    (hro : ro.success = true ∨
      ∃ m, ro.message = some (JVal.jstr m) ∧ m ≠ "") :
    ∀ m, (validateAndResolve er session now ro).1.clarificationMessage =
        some m → ∃ s, m = JVal.jstr s ∧ s ≠ "" := by
  intro m hm
  simp only [validateAndResolve] at hm
  by_cases hgc : er.intent = "general_chat"
  · rw [if_pos hgc] at hm
    simp at hm
  · rw [if_neg hgc] at hm
    by_cases hmiss : (REQUIRED_FIELDS er.intent).filter
        (fun field => ¬ JVal.truthyO (fGet er.fields field)) ≠ []
    · rw [if_pos hmiss] at hm
      simp only [Option.some.injEq] at hm
      exact ⟨_, hm.symm, generateClarificationMessage_ne _ _ _⟩
    · rw [if_neg hmiss] at hm
      by_cases hres : er.intent ∈ resolutionIntents
      · rw [if_pos hres] at hm
        by_cases hsucc : ¬ ro.success = true
        · rw [if_pos hsucc] at hm
          simp only at hm
          rcases hro with h | ⟨m', hmsg, hne⟩
          · exact absurd h hsucc
          · rw [hmsg] at hm
            simp only [Option.some.injEq] at hm
            exact ⟨m', hm.symm, hne⟩
        · rw [if_neg hsucc] at hm
          simp at hm
      · rw [if_neg hres] at hm
        simp at hm

end AICal

namespace AICal

/-- Shape of every result the intent switch can return: never of type
`clarification`, message absent or a string, and `chat` results carry a
nonempty string message. -/
theorem executeSwitch_shape (v : ValidationResult) (oracle : Oracle)
    (ar : ActionResult) (h : executeSwitch v oracle = .ok ar) :
    ar.type ≠ some "clarification" ∧
    (ar.message = none ∨ ∃ s, ar.message = some (JVal.jstr s)) ∧
    (ar.type = some "chat" →
      ∃ s, ar.message = some (JVal.jstr s) ∧ s ≠ "") := by
  simp only [executeSwitch] at h
  split_ifs at h
  · -- create_event
    rw [Except.ok.injEq] at h
    subst h
    cases oracle.createOutcome with
    | ok r => exact ⟨by simp [executeCreateEvent], Or.inr ⟨_, rfl⟩, by simp [executeCreateEvent]⟩
    | error e => exact ⟨by simp [executeCreateEvent], Or.inl rfl, by simp [executeCreateEvent]⟩
  · -- update_event
    rw [Except.ok.injEq] at h
    subst h
    cases hres : fGet v.fields "resolvedEvent" with
    | none => exact ⟨by simp [executeUpdateEvent, hres], Or.inl (by simp [executeUpdateEvent, hres]), by simp [executeUpdateEvent, hres]⟩
    | some ev =>
      cases oracle.updateOutcome with
      | ok r => exact ⟨by simp [executeUpdateEvent, hres], Or.inr ⟨r.message, by simp [executeUpdateEvent, hres]⟩, by simp [executeUpdateEvent, hres]⟩
      | error e => exact ⟨by simp [executeUpdateEvent, hres], Or.inl (by simp [executeUpdateEvent, hres]), by simp [executeUpdateEvent, hres]⟩
  · -- cancel_event
    rw [Except.ok.injEq] at h
    subst h
    cases hres : fGet v.fields "resolvedEvent" with
    | none => exact ⟨by simp [executeCancelEvent, hres], Or.inl (by simp [executeCancelEvent, hres]), by simp [executeCancelEvent, hres]⟩
    | some ev =>
      cases oracle.cancelOutcome with
      | ok r => exact ⟨by simp [executeCancelEvent, hres], Or.inr ⟨r, by simp [executeCancelEvent, hres]⟩, by simp [executeCancelEvent, hres]⟩
      | error e => exact ⟨by simp [executeCancelEvent, hres], Or.inl (by simp [executeCancelEvent, hres]), by simp [executeCancelEvent, hres]⟩
  · -- prepare_event
    rw [Except.ok.injEq] at h
    subst h
    cases hres : fGet v.fields "resolvedEvent" with
    | none => exact ⟨by simp [executePrepareEvent, hres], Or.inl (by simp [executePrepareEvent, hres]), by simp [executePrepareEvent, hres]⟩
    | some ev =>
      cases oracle.getEventOutcome with
      | ok r => exact ⟨by simp [executePrepareEvent, hres], Or.inr ⟨"Here are the details and notes for your event:", by simp [executePrepareEvent, hres]⟩, by simp [executePrepareEvent, hres]⟩
      | error e => exact ⟨by simp [executePrepareEvent, hres], Or.inl (by simp [executePrepareEvent, hres]), by simp [executePrepareEvent, hres]⟩
  · -- followup_event
    rw [Except.ok.injEq] at h
    subst h
    cases hres : fGet v.fields "resolvedEvent" with
    | none => exact ⟨by simp [executeFollowupEvent, hres], Or.inl (by simp [executeFollowupEvent, hres]), by simp [executeFollowupEvent, hres]⟩
    | some ev =>
      cases oracle.followupOutcome with
      | ok r => exact ⟨by simp [executeFollowupEvent, hres], Or.inr ⟨r.message, by simp [executeFollowupEvent, hres]⟩, by simp [executeFollowupEvent, hres]⟩
      | error e => exact ⟨by simp [executeFollowupEvent, hres], Or.inl (by simp [executeFollowupEvent, hres]), by simp [executeFollowupEvent, hres]⟩
  · -- list_events
    rw [Except.ok.injEq] at h
    subst h
    cases oracle.searchOutcome with
    | error e => exact ⟨by simp [executeListEvents], Or.inl rfl, by simp [executeListEvents]⟩
    | ok events =>
      cases oracle.listGenOutcome with
      | ok r => exact ⟨by simp [executeListEvents], Or.inr ⟨_, rfl⟩, by simp [executeListEvents]⟩
      | error e => exact ⟨by simp [executeListEvents], Or.inl rfl, by simp [executeListEvents]⟩
  · -- get_information
    rw [Except.ok.injEq] at h
    subst h
    exact ⟨by simp [executeGetInformation], Or.inr ⟨_, rfl⟩,
      fun _ => ⟨_, rfl, by decide⟩⟩
  · -- help_request
    rw [Except.ok.injEq] at h
    subst h
    exact ⟨by simp [executeHelpRequest], Or.inr ⟨_, rfl⟩,
      fun _ => ⟨_, rfl, by decide⟩⟩
  · -- general_chat
    rw [Except.ok.injEq] at h
    subst h
    exact ⟨by simp [executeGeneralChat], Or.inr ⟨_, rfl⟩,
      fun _ => ⟨_, rfl, by decide⟩⟩

end AICal

namespace AICal

/-- `generateFeedback` never returns the empty string for any result the
dispatcher can produce (given that clarification messages on the validation
result are nonempty strings). -/
theorem generateFeedback_ne (v : ValidationResult) (oracle : Oracle)
    (ar : ActionResult) (h : executeAction v oracle = .ok ar)
    (hcl : ∀ m, v.clarificationMessage = some m →
      ∃ s, m = JVal.jstr s ∧ s ≠ "") :
    generateFeedback ar v ≠ "" := by
  have shape_ne : ∀ ar2 : ActionResult,
      (ar2.type ≠ some "clarification" ∧
       (ar2.message = none ∨ ∃ s, ar2.message = some (JVal.jstr s)) ∧
       (ar2.type = some "chat" →
         ∃ s, ar2.message = some (JVal.jstr s) ∧ s ≠ "")) →
      generateFeedback ar2 v ≠ "" := by
    rintro ar2 ⟨h1, h2, h3⟩
    simp only [generateFeedback]
    rw [if_neg h1]
    by_cases hchat : ar2.type = some "chat"
    · rw [if_pos hchat]
      obtain ⟨s, hm, hs⟩ := h3 hchat
      rw [hm]
      simpa [jshowO, jshow] using hs
    · rw [if_neg hchat]
      by_cases hsucc : ar2.success = true
      · rw [if_pos hsucc]
        rcases h2 with hnone | ⟨s, hsome⟩
        · rw [hnone]
          decide
        · rw [hsome]
          by_cases hse : s = "" <;> simp [hse]
      · rw [if_neg hsucc]
        exact strOr_ne _ _ (by decide)
  simp only [executeAction] at h
  by_cases hra : ¬ v.requiresAction = true
  · rw [if_pos hra] at h
    by_cases hnc : v.needsClarification = true
    · rw [if_pos hnc] at h
      rw [Except.ok.injEq] at h
      subst h
      simp only [generateFeedback, if_true]
      cases hm : v.clarificationMessage with
      | none => decide
      | some m =>
        obtain ⟨s, rfl, hs⟩ := hcl m hm
        simpa [jshowO, jshow] using hs
    · rw [if_neg hnc] at h
      by_cases hgc : v.intent = "general_chat"
      · rw [if_pos hgc] at h
        rw [Except.ok.injEq] at h
        subst h
        exact shape_ne _ ⟨by simp [executeGeneralChat], Or.inr ⟨_, rfl⟩,
          fun _ => ⟨_, rfl, by decide⟩⟩
      · rw [if_neg hgc] at h
        exact shape_ne _ (executeSwitch_shape v oracle ar h)
  · rw [if_neg hra] at h
    exact shape_ne _ (executeSwitch_shape v oracle ar h)

/-- The reply of a multi-intent execution is the (nonempty) combined
message. -/
theorem executeMultipleIntents_response (steps : List MultiStep)
    (session : Session) (now : ℤ) (text : String) :
    ∃ T, (executeMultipleIntents steps session now text).1.response =
      some (.jstr ("I've executed the following actions:\n\n" ++ T)) := by
  obtain ⟨L, C, S, hEq, hLen, hInt, T, hC⟩ :=
    multiLoop_spec now steps 0 [] true
      "I've executed the following actions:\n\n" session
  refine ⟨T, ?_⟩
  simp only [executeMultipleIntents, hEq]
  rw [hC]

/-- `processMessage` always replies with a nonempty natural-language string
— never a raw error — whatever the collaborator outcomes, when the event
resolution is the one performed by `resolveEventIdentifier`. -/
theorem processMessage_response_nonempty (text : String) (session : Session)
    (now : ℤ) (multiRaw : Except String (Option JVal))
    (stepEnvs : ℕ → ResolveResult × Oracle)
    (extractRaw : Except String (Option JVal))
    (identifier : String) (sO : Except String (List JVal))
    (aiO : Except String (Option JVal)) (oracle : Oracle) :
    ∃ s, (processMessage text session now multiRaw stepEnvs extractRaw
        (resolveEventIdentifier identifier sO aiO) oracle).1.response =
      some (.jstr s) ∧ s ≠ "" := by
  simp only [processMessage]
  by_cases hm : 1 < (detectMultipleIntents multiRaw).length
  · rw [if_pos hm]
    obtain ⟨T, hT⟩ := executeMultipleIntents_response
      (((detectMultipleIntents multiRaw).enum).map
        (fun p => (toExtractionResult p.2, (stepEnvs p.1).1, (stepEnvs p.1).2)))
      session now text
    exact ⟨_, hT, string_append_ne _ _ (by decide)⟩
  · rw [if_neg hm]
    cases extractRaw with
    | error e => exact ⟨_, rfl, by decide⟩
    | ok raw =>
      dsimp only
      rcases hv : validateAndResolve { intent := (toExtractionResult (parseIntentResponse raw)).intent, confidence := (toExtractionResult (parseIntentResponse raw)).confidence, fields := (toExtractionResult (parseIntentResponse raw)).fields, originalMessage := some text } session now (resolveEventIdentifier identifier sO aiO) with ⟨vres, s1⟩
      dsimp only
      cases hact : executeAction vres oracle with
      | error e => exact ⟨_, rfl, by decide⟩
      | ok actionResult =>
        refine ⟨generateFeedback actionResult vres, rfl, ?_⟩
        refine generateFeedback_ne vres oracle actionResult hact ?_
        have h3 := validateAndResolve_clar_shape { intent := (toExtractionResult (parseIntentResponse raw)).intent, confidence := (toExtractionResult (parseIntentResponse raw)).confidence, fields := (toExtractionResult (parseIntentResponse raw)).fields, originalMessage := some text } session now (resolveEventIdentifier identifier sO aiO) (resolveEventIdentifier_message_shape identifier sO aiO)
        rw [hv] at h3
        exact h3

end AICal

namespace AICal

/-- **C7** — Every intent handler converts a thrown collaborator error into
`success = false` with the error message; `executeAction` never propagates
an exception for any intent of the known enumeration; and the orchestrator's
reply to the caller is always a nonempty natural-language string, never a
raw error. -/
theorem C7_handler_errors_contained :
    (∀ e, executeCreateEvent (.error e) =
      { success := false, error := some e }) ∧
    (∀ fields ev e, fGet fields "resolvedEvent" = some ev →
      executeUpdateEvent fields (.error e) =
        { success := false, error := some e }) ∧
    (∀ fields ev e, fGet fields "resolvedEvent" = some ev →
      executeCancelEvent fields (.error e) =
        { success := false, error := some e }) ∧
    (∀ fields ev e notesOutcome, fGet fields "resolvedEvent" = some ev →
      executePrepareEvent fields (.error e) notesOutcome =
        { success := false, error := some e }) ∧
    (∀ fields ev e, fGet fields "resolvedEvent" = some ev →
      executeFollowupEvent fields (.error e) =
        { success := false, error := some e }) ∧
    (∀ e listGenOutcome, executeListEvents (.error e) listGenOutcome =
      { success := false, error := some e }) ∧
    (∀ (v : ValidationResult) (oracle : Oracle), v.intent ∈ knownIntents →
      ∃ r, executeAction v oracle = .ok r) ∧
    (∀ text session now multiRaw stepEnvs extractRaw identifier sO aiO oracle,
      ∃ s, (processMessage text session now multiRaw stepEnvs extractRaw
          (resolveEventIdentifier identifier sO aiO) oracle).1.response =
        some (.jstr s) ∧ s ≠ "") := by
  refine ⟨fun e => rfl, ?_, ?_, ?_, ?_, fun e g => rfl, ?_, ?_⟩
  · intro fields ev e hev
    simp [executeUpdateEvent, hev]
  · intro fields ev e hev
    simp [executeCancelEvent, hev]
  · intro fields ev e n hev
    simp [executePrepareEvent, hev]
  · intro fields ev e hev
    simp [executeFollowupEvent, hev]
  · intro v oracle hmem
    have hsw : ∃ r, executeSwitch v oracle = .ok r := by
      simp only [knownIntents, List.mem_cons, List.mem_singleton] at hmem
      rcases hmem with h|h|h|h|h|h|h|h|h|h
      · refine ⟨executeCreateEvent oracle.createOutcome, ?_⟩
        simp only [executeSwitch]
        rw [if_pos h]
      · refine ⟨executeUpdateEvent v.fields oracle.updateOutcome, ?_⟩
        simp only [executeSwitch]
        rw [if_neg (by rw [h]; decide), if_pos h]
      · refine ⟨executeCancelEvent v.fields oracle.cancelOutcome, ?_⟩
        simp only [executeSwitch]
        rw [if_neg (by rw [h]; decide), if_neg (by rw [h]; decide), if_pos h]
      · refine ⟨executePrepareEvent v.fields oracle.getEventOutcome oracle.notesOutcome, ?_⟩
        simp only [executeSwitch]
        rw [if_neg (by rw [h]; decide), if_neg (by rw [h]; decide), if_neg (by rw [h]; decide), if_pos h]
      · refine ⟨executeFollowupEvent v.fields oracle.followupOutcome, ?_⟩
        simp only [executeSwitch]
        rw [if_neg (by rw [h]; decide), if_neg (by rw [h]; decide), if_neg (by rw [h]; decide), if_neg (by rw [h]; decide), if_pos h]
      · refine ⟨executeListEvents oracle.searchOutcome oracle.listGenOutcome, ?_⟩
        simp only [executeSwitch]
        rw [if_neg (by rw [h]; decide), if_neg (by rw [h]; decide), if_neg (by rw [h]; decide), if_neg (by rw [h]; decide), if_neg (by rw [h]; decide), if_pos h]
      · refine ⟨executeGetInformation, ?_⟩
        simp only [executeSwitch]
        rw [if_neg (by rw [h]; decide), if_neg (by rw [h]; decide), if_neg (by rw [h]; decide), if_neg (by rw [h]; decide), if_neg (by rw [h]; decide), if_neg (by rw [h]; decide), if_pos h]
      · refine ⟨executeHelpRequest, ?_⟩
        simp only [executeSwitch]
        rw [if_neg (by rw [h]; decide), if_neg (by rw [h]; decide), if_neg (by rw [h]; decide), if_neg (by rw [h]; decide), if_neg (by rw [h]; decide), if_neg (by rw [h]; decide), if_neg (by rw [h]; decide), if_pos h]
      · refine ⟨executeGeneralChat, ?_⟩
        simp only [executeSwitch]
        rw [if_neg (by rw [h]; decide), if_neg (by rw [h]; decide), if_neg (by rw [h]; decide), if_neg (by rw [h]; decide), if_neg (by rw [h]; decide), if_neg (by rw [h]; decide), if_neg (by rw [h]; decide), if_neg (by rw [h]; decide), if_pos h]
      · simp at h
    obtain ⟨r, hr⟩ := hsw
    simp only [executeAction]
    split_ifs
    all_goals first
      | exact ⟨_, rfl⟩
      | exact ⟨r, hr⟩
  · intro text session now multiRaw stepEnvs extractRaw identifier sO aiO oracle
    exact processMessage_response_nonempty text session now multiRaw stepEnvs
      extractRaw identifier sO aiO oracle

/-- **C7 witness** — a calendar failure on `update_event` is converted to a
`success = false` result, and `executeAction` returns (rather than throws)
for a concrete known intent. -/
theorem C7_witness :
    executeUpdateEvent [("resolvedEvent", JVal.jobj [("id", JVal.jstr "e1")])]
      (.error "calendar down") =
        { success := false, error := some "calendar down" } ∧
    (∃ r, executeAction { intent := "list_events", requiresAction := true }
      { createOutcome := .error "x", updateOutcome := .error "x",
        cancelOutcome := .error "x", getEventOutcome := .error "x",
        notesOutcome := .error "x", followupOutcome := .error "x",
        searchOutcome := .error "x", listGenOutcome := .error "x" } = .ok r) := by
  refine ⟨?_, ?_⟩
  · exact C7_handler_errors_contained.2.1
      [("resolvedEvent", JVal.jobj [("id", JVal.jstr "e1")])]
      (JVal.jobj [("id", JVal.jstr "e1")]) "calendar down" rfl
  · exact C7_handler_errors_contained.2.2.2.2.2.2.1
      { intent := "list_events", requiresAction := true }
      { createOutcome := .error "x", updateOutcome := .error "x",
        cancelOutcome := .error "x", getEventOutcome := .error "x",
        notesOutcome := .error "x", followupOutcome := .error "x",
        searchOutcome := .error "x", listGenOutcome := .error "x" }
      (by decide)

end AICal

namespace AICal

/-- **C8 counterexample** — the code enforces no match-confidence floor: a
collaborator response flagged successful with a valid candidate id is
accepted at confidence 0.1, below the 0.3 floor the search prompt
documents (`<0.3 = likely no valid match`), contradicting the claim that a
below-floor confidence yields `not_found`. -/
theorem C8_counterexample :
    (resolveEventIdentifier "sync"
      (.ok [JVal.jobj [("id", JVal.jstr "evt_1"), ("summary", JVal.jstr "Team sync")]])
      (.ok (some (JVal.jobj [("success", JVal.jbool true),
        ("event", JVal.jobj [("id", JVal.jstr "evt_1")]),
        ("confidence", JVal.jnum (1/10)),
        ("message", JVal.jstr "weak match")])))).success = true ∧
    (resolveEventIdentifier "sync"
      (.ok [JVal.jobj [("id", JVal.jstr "evt_1"), ("summary", JVal.jstr "Team sync")]])
      (.ok (some (JVal.jobj [("success", JVal.jbool true),
        ("event", JVal.jobj [("id", JVal.jstr "evt_1")]),
        ("confidence", JVal.jnum (1/10)),
        ("message", JVal.jstr "weak match")])))).event =
      some (JVal.jobj [("id", JVal.jstr "evt_1"), ("summary", JVal.jstr "Team sync")]) ∧
    (resolveEventIdentifier "sync"
      (.ok [JVal.jobj [("id", JVal.jstr "evt_1"), ("summary", JVal.jstr "Team sync")]])
      (.ok (some (JVal.jobj [("success", JVal.jbool true),
        ("event", JVal.jobj [("id", JVal.jstr "evt_1")]),
        ("confidence", JVal.jnum (1/10)),
        ("message", JVal.jstr "weak match")])))).confidence =
      some (JVal.jnum (1/10)) ∧
    (1/10 : ℚ) < 3/10 := by
  refine ⟨rfl, rfl, rfl, by norm_num⟩

/-- **C8 (amended)** — during event resolution, whenever the NLU
collaborator explicitly reports no match (success false or no/null event in
the parsed response), the resolution fails with no event attached, and the
caller converts the failed resolution into a clarification response with
the resolver's message; no confidence floor is enforced in code (the floor
is delegated to the collaborator's own self-report). -/
theorem C8_no_match_is_not_found (identifier : String)
    (sO : Except String (List JVal)) (aiO : Except String (Option JVal))
    (er : ExtractionResult) (session : Session) (now : ℤ) :
    (∀ events resp, sO = .ok events → aiO = .ok resp →
      ¬ (JVal.truthyO ((parseEventSearchResponse resp events).getF "success") = true ∧
         JVal.truthyO ((parseEventSearchResponse resp events).getF "event") = true) →
      (resolveEventIdentifier identifier sO aiO).success = false ∧
      (resolveEventIdentifier identifier sO aiO).event = none) ∧
    (er.intent ∈ resolutionIntents →
     er.intent ≠ "general_chat" →
     (REQUIRED_FIELDS er.intent).filter
        (fun field => ¬ JVal.truthyO (fGet er.fields field)) = [] →
     (resolveEventIdentifier identifier sO aiO).success = false →
     (validateAndResolve er session now
        (resolveEventIdentifier identifier sO aiO)).1.requiresAction = false ∧
     (validateAndResolve er session now
        (resolveEventIdentifier identifier sO aiO)).1.needsClarification = true ∧
     (validateAndResolve er session now
        (resolveEventIdentifier identifier sO aiO)).1.clarificationMessage =
       (resolveEventIdentifier identifier sO aiO).message) := by
  constructor
  · rintro events resp rfl rfl hno
    simp only [resolveEventIdentifier]
    by_cases hempty : events.isEmpty
    · rw [if_pos hempty]
      exact ⟨rfl, rfl⟩
    · rw [if_neg hempty]
      rw [if_neg hno]
      exact ⟨rfl, rfl⟩
  · intro hres hgc hmiss hfail
    simp only [validateAndResolve]
    rw [if_neg hgc, if_neg (by simpa using hmiss), if_pos hres,
      if_pos (by simpa using hfail)]
    exact ⟨rfl, rfl, rfl⟩

/-- **C8 witness** — a collaborator response with `success:false` and a null
event resolves to a failed resolution, converted by validation into a
clarification for a `cancel_event` intent. -/
theorem C8_witness :
    (resolveEventIdentifier "standup"
      (.ok [JVal.jobj [("id", JVal.jstr "evt_1")]])
      (.ok (some (JVal.jobj [("success", JVal.jbool false),
        ("event", JVal.jnull), ("confidence", JVal.jnum 0),
        ("message", JVal.jstr "No event closely matches the query.")])))).success
      = false ∧
    (validateAndResolve { intent := "cancel_event", fields := [("event_identifier", JVal.jstr "standup")] } (freshSession 0) 0
      (resolveEventIdentifier "standup"
        (.ok [JVal.jobj [("id", JVal.jstr "evt_1")]])
        (.ok (some (JVal.jobj [("success", JVal.jbool false),
          ("event", JVal.jnull), ("confidence", JVal.jnum 0),
          ("message", JVal.jstr "No event closely matches the query.")]))))).1.needsClarification
      = true := by
  have h := C8_no_match_is_not_found "standup"
    (.ok [JVal.jobj [("id", JVal.jstr "evt_1")]])
    (.ok (some (JVal.jobj [("success", JVal.jbool false),
      ("event", JVal.jnull), ("confidence", JVal.jnum 0),
      ("message", JVal.jstr "No event closely matches the query.")])))
    { intent := "cancel_event", fields := [("event_identifier", JVal.jstr "standup")] }
    (freshSession 0) 0
  have h1 := h.1 _ _ rfl rfl (by decide)
  exact ⟨h1.1, (h.2 (by decide) (by decide) (by decide) h1.1).2.1⟩

end AICal

namespace AICal

/-- `validateAndResolve` never touches the session's context. -/
theorem validateAndResolve_context (er : ExtractionResult) (s : Session)
    (now : ℤ) (ro : ResolveResult) :
    (validateAndResolve er s now ro).2.context = s.context := by
  simp only [validateAndResolve]
  split_ifs <;> rfl

/-- `updateUserSession` never touches the session's context. -/
theorem updateUserSession_context (s : Session) (m r : String) (t : ℤ) :
    (updateUserSession s m r t).context = s.context := rfl

/-- The multi-intent loop never touches the session's context. -/
theorem multiLoop_context (now : ℤ) :
    ∀ (steps : List MultiStep) (i : ℕ) (acc : List StepResult)
      (allSucc : Bool) (combined : String) (s : Session),
      (multiLoop now steps i acc allSucc combined s).2.2.2.context =
        s.context := by
  intro steps
  induction steps with
  | nil => intro i acc allSucc combined s; rfl
  | cons step rest ih =>
    intro i acc allSucc combined s
    rcases hval : validateAndResolve step.1 s now step.2.1 with ⟨vres, s1⟩
    have hs1 : s1.context = s.context := by
      have := validateAndResolve_context step.1 s now step.2.1
      rw [hval] at this
      exact this
    by_cases hcl : vres.needsClarification = true
    · simp only [multiLoop, hval, hcl, if_true]
      rw [ih, hs1]
    · rw [Bool.not_eq_true] at hcl
      cases hact : executeAction vres step.2.2 with
      | error e =>
        simp only [multiLoop, hval, hcl, hact, Bool.false_eq_true, if_false]
        rw [ih, hs1]
      | ok actionResult =>
        by_cases hsucc : actionResult.success = true
        · simp only [multiLoop, hval, hcl, hact, hsucc, Bool.false_eq_true,
            if_false, if_true]
          rw [ih, hs1]
        · rw [Bool.not_eq_true] at hsucc
          simp only [multiLoop, hval, hcl, hact, hsucc, Bool.false_eq_true,
            if_false]
          rw [ih, hs1]

/-- `executeMultipleIntents` never touches the session's context. -/
theorem executeMultipleIntents_context (steps : List MultiStep) (s : Session)
    (now : ℤ) (text : String) :
    (executeMultipleIntents steps s now text).2.context = s.context := by
  simp only [executeMultipleIntents]
  rcases hl : multiLoop now steps 0 [] true
      "I've executed the following actions:\n\n" s with ⟨res, ok, c, s1⟩
  have := multiLoop_context now steps 0 [] true
    "I've executed the following actions:\n\n" s
  rw [hl] at this
  simpa [updateUserSession_context] using this

/-- `processMessage` never sets, consults or clears the session context:
the context after processing equals the context before. -/
theorem processMessage_context (text : String) (session : Session) (now : ℤ)
    (multiRaw : Except String (Option JVal))
    (stepEnvs : ℕ → ResolveResult × Oracle)
    (extractRaw : Except String (Option JVal))
    (ro : ResolveResult) (oracle : Oracle) :
    (processMessage text session now multiRaw stepEnvs extractRaw ro
      oracle).2.context = session.context := by
  simp only [processMessage]
  by_cases hm : 1 < (detectMultipleIntents multiRaw).length
  · rw [if_pos hm]
    exact executeMultipleIntents_context _ _ _ _
  · rw [if_neg hm]
    cases extractRaw with
    | error e => rfl
    | ok raw =>
      dsimp only
      rcases hv : validateAndResolve { intent := (toExtractionResult (parseIntentResponse raw)).intent, confidence := (toExtractionResult (parseIntentResponse raw)).confidence, fields := (toExtractionResult (parseIntentResponse raw)).fields, originalMessage := some text } session now ro with ⟨vres, s1⟩
      have hs1 : s1.context = session.context := by
        have := validateAndResolve_context { intent := (toExtractionResult (parseIntentResponse raw)).intent, confidence := (toExtractionResult (parseIntentResponse raw)).confidence, fields := (toExtractionResult (parseIntentResponse raw)).fields, originalMessage := some text } session now ro
        rw [hv] at this
        exact this
      dsimp only
      cases hact : executeAction vres oracle with
      | error e => exact hs1
      | ok actionResult =>
        simpa [updateUserSession_context] using hs1

end AICal

namespace AICal

/-- **C6 counterexample** — with an active `event_update` context, a message
matching none of the continuation heuristics ("hello there") makes
`checkContextContinuation` return `null` with the context **left active**,
contradicting the claim that any other message clears the ActiveContext;
(the claim's further assertion that this check runs before normal extraction
is also refuted: `processMessage` never invokes it, see the amended
theorem). -/
theorem C6_counterexample :
    checkContextContinuation "hello there"
      (Session.mk [] none (some (ActiveContext.mk true "event_update" "evt_1" 0)) 0)
      (fun _ _ => .ok (CalendarOk.mk "ok" JVal.jnull)) =
      (none,
       Session.mk [] none (some (ActiveContext.mk true "event_update" "evt_1" 0)) 0) ∧
    (checkContextContinuation "hello there"
      (Session.mk [] none (some (ActiveContext.mk true "event_update" "evt_1" 0)) 0)
      (fun _ _ => .ok (CalendarOk.mk "ok" JVal.jnull))).2.context =
      some (ActiveContext.mk true "event_update" "evt_1" 0) := by
  exact ⟨rfl, rfl⟩

/-- **C6 (amended)** — the `checkContextContinuation` handler exists with
the email/location/description heuristics and, on an extractable email with
an active `event_update` context, applies a direct `update_event` attendee
patch on the stored event id and clears the context on success; but a
message matching no heuristic returns `null` leaving the context
**unchanged** (not cleared); and the orchestrator's `processMessage` never
invokes the handler or sets a context: the session context is unchanged by
every processed message. -/
theorem C6_continuation_unwired (session : Session) (ctx : ActiveContext)
    (text : String) (f : String → UpdateData → Except String CalendarOk) :
    (∀ em r, session.context = some ctx → ctx.active = true →
      ctx.type = "event_update" → ctx.eventId ≠ "" →
      (strContains (strToLower text) "email" = true ∨
       strContains (strToLower text) "@" = true ∨
       strContains (strToLower text) "add" = true) →
      firstEmailMatch text.data = some em →
      f ctx.eventId { attendees := some [String.mk em] } = .ok r →
      checkContextContinuation text session f =
        (some { success := true, intent := some "update_event",
                confidence := some (19/20),
                response := some (.jstr r.message),
                data := some (.jval (.jobj [("action", .jstr "update_event"),
                  ("event", r.event)])) },
         { session with context := none })) ∧
    ((∀ kw ∈ (["email", "@", "add", "location", "where", "description",
        "note"] : List String), strContains (strToLower text) kw = false) →
      checkContextContinuation text session f = (none, session)) ∧
    (∀ now multiRaw stepEnvs extractRaw ro oracle,
      (processMessage text session now multiRaw stepEnvs extractRaw ro
        oracle).2.context = session.context) := by
  refine ⟨?_, ?_, ?_⟩
  · intro em r hctx hact htype hid hkw hem hf
    simp only [checkContextContinuation, hctx]
    rw [if_neg (by simp [hact])]
    rw [if_pos ⟨⟨htype, hid⟩, hkw⟩, hem]
    simp only [continueEventUpdate, hf]
  · intro hno
    cases hctx : session.context with
    | none => simp [checkContextContinuation, hctx]
    | some c =>
      simp only [checkContextContinuation, hctx]
      by_cases hact : c.active = true
      · rw [if_neg (by simp [hact])]
        rw [if_neg (by
          simp [hno "email" (by decide), hno "@" (by decide),
            hno "add" (by decide)])]
        rw [if_neg (by
          simp [hno "location" (by decide), hno "where" (by decide)])]
        rw [if_neg (by
          simp [hno "description" (by decide), hno "note" (by decide)])]
      · rw [if_pos (by simp [hact])]
  · intro now multiRaw stepEnvs extractRaw ro oracle
    exact processMessage_context text session now multiRaw stepEnvs extractRaw
      ro oracle

/-- **C6 witness** — with active context on event `evt_1`, the message
"add sarah@x.com" is applied as an attendee patch to `evt_1` and the
context is cleared. -/
theorem C6_witness :
    checkContextContinuation "add sarah@x.com"
      (Session.mk [] none (some (ActiveContext.mk true "event_update" "evt_1" 0)) 0)
      (fun _ _ => .ok (CalendarOk.mk "Event updated successfully" JVal.jnull)) =
      (some { success := true, intent := some "update_event",
              confidence := some (19/20),
              response := some (.jstr "Event updated successfully"),
              data := some (.jval (.jobj [("action", JVal.jstr "update_event"),
                ("event", JVal.jnull)])) },
       { Session.mk [] none (some (ActiveContext.mk true "event_update" "evt_1" 0)) 0
          with context := none }) :=
  (C6_continuation_unwired
    (Session.mk [] none (some (ActiveContext.mk true "event_update" "evt_1" 0)) 0)
    (ActiveContext.mk true "event_update" "evt_1" 0) "add sarah@x.com"
    (fun _ _ => .ok (CalendarOk.mk "Event updated successfully" JVal.jnull))).1
    ("sarah@x.com").data (CalendarOk.mk "Event updated successfully" JVal.jnull)
    rfl rfl rfl (by decide) (Or.inr (Or.inr (by decide))) (by decide) rfl

end AICal

namespace AICal

/-- **C9 counterexample** — an update payload containing only an attendees
list with no valid email changes the event's `description`, a field not
present in the payload, contradicting "every other field of the existing
event is carried over unchanged". -/
theorem C9_counterexample :
    (mergeEventData
      (GEvent.mk "evt_1" "Team sync" (some "Project sync") none 0 60 none)
      { attendees := some ["John"] }).description =
        some "Project sync\n\nAttendees: John" ∧
    ({ attendees := some ["John"] } : UpdateData).description = none ∧
    some "Project sync\n\nAttendees: John" ≠ (some "Project sync") := by
  exact ⟨rfl, rfl, by decide⟩

/-- **C9 (amended)** — `mergeEventData` changes only the fields present in
the update payload and carries every other field of the existing event over
unchanged, **except** that an attendees list containing no valid email
address appends the nonblank attendee names to the event's description;
in particular, when a new date and time are supplied without an end time or
duration, the updated end equals the new start plus the original event's
duration rather than a default duration. -/
theorem C9_merge_preserves_unspecified_fields (ex : GEvent) (u : UpdateData) :
    (∀ d t, u.date = some d → u.time = some t → u.endTime = none →
      durTruthy u.duration = false →
      (mergeEventData ex u).startMin = civilToMinutes d t ∧
      (mergeEventData ex u).endMin =
        civilToMinutes d t + (ex.endMin - ex.startMin)) ∧
    ((mergeEventData ex u).id = ex.id) ∧
    (strTruthy u.title = false → (mergeEventData ex u).summary = ex.summary) ∧
    (strTruthy u.location = false →
      (mergeEventData ex u).location = ex.location) ∧
    (u.attendees = none → (mergeEventData ex u).attendees = ex.attendees) ∧
    ((u.date = none ∨ u.time = none) →
      (mergeEventData ex u).startMin = ex.startMin ∧
      (mergeEventData ex u).endMin = ex.endMin) ∧
    (strTruthy u.description = false → u.attendees = none →
      (mergeEventData ex u).description = ex.description) ∧
    (∀ l, u.attendees = some l → (l.filter isValidEmail) ≠ [] →
      (mergeEventData ex u).attendees =
        some ((l.filter isValidEmail).map GAttendee.mk) ∧
      (strTruthy u.description = false →
        (mergeEventData ex u).description = ex.description)) := by
  refine ⟨?_, ?_, ?_, ?_, ?_, ?_, ?_, ?_⟩
  · intro d t hd ht hend hdur
    simp only [mergeEventData, hd, ht, hend, hdur, Bool.false_eq_true,
      if_false]
    cases hu : u.attendees with
    | none =>
      refine ⟨?_, ?_⟩ <;> first | trivial | rfl | (split_ifs <;> rfl)
    | some l =>
      by_cases hv : 0 < ((l.filter isValidEmail).map GAttendee.mk).length
      · simp only [hv, if_true]
        refine ⟨?_, ?_⟩ <;> first | trivial | rfl | (split_ifs <;> rfl)
      · simp only [hv, if_false]
        by_cases hn : 0 < (l.filter (fun n => n ≠ "" && strTrim n ≠ "")).length
        · simp only [hn, if_true]
          refine ⟨?_, ?_⟩ <;> first | trivial | rfl | (split_ifs <;> rfl)
        · simp only [hn, if_false]
          refine ⟨?_, ?_⟩ <;> first | trivial | rfl | (split_ifs <;> rfl)
  · simp only [mergeEventData]
    cases u.attendees <;> cases u.date <;> cases u.time <;>
      (first | rfl | (dsimp only; first | rfl | (split_ifs <;> rfl)))
  · intro htitle
    simp only [mergeEventData, htitle, Bool.false_eq_true, if_false]
    cases u.attendees <;> cases u.date <;> cases u.time <;>
      (first | rfl | (dsimp only; first | rfl | (split_ifs <;> rfl)))
  · intro hloc
    simp only [mergeEventData, hloc, Bool.false_eq_true, if_false]
    cases u.attendees <;> cases u.date <;> cases u.time <;>
      (first | rfl | (dsimp only; first | rfl | (split_ifs <;> rfl)))
  · intro hatt
    simp only [mergeEventData, hatt]
    cases u.date <;> cases u.time <;>
      (first | rfl | (dsimp only; first | rfl | (split_ifs <;> rfl)))
  · intro hdt
    simp only [mergeEventData]
    rcases hdt with h | h <;> rw [h] <;> cases u.attendees <;>
      cases u.date <;> cases u.time <;>
      (first | exact ⟨rfl, rfl⟩ | (dsimp only; first | exact ⟨rfl, rfl⟩ | (split_ifs <;> exact ⟨rfl, rfl⟩)))
  · intro hdesc hatt
    simp only [mergeEventData, hatt, hdesc, Bool.false_eq_true, if_false]
    cases u.date <;> cases u.time <;>
      (first | rfl | (dsimp only; first | rfl | (split_ifs <;> rfl)))
  · intro l hatt hvalid
    have hlen : 0 < ((l.filter isValidEmail).map GAttendee.mk).length := by
      simp only [List.length_map]
      exact List.length_pos.mpr hvalid
    constructor
    · simp only [mergeEventData, hatt, hlen, if_true]
      all_goals cases u.date <;> cases u.time <;>
        (first | rfl | (dsimp only; first | rfl | (split_ifs <;> rfl)))
    · intro hdesc
      simp only [mergeEventData, hatt, hdesc, hlen, Bool.false_eq_true,
        if_false, if_true]
      all_goals cases u.date <;> cases u.time <;>
        (first | rfl | (dsimp only; first | rfl | (split_ifs <;> rfl)))

/-- **C9 witness** — rescheduling an event of original duration 90 minutes
to 2025-11-03 14:00 with no end/duration in the payload yields
end = new start + 90, and the unspecified summary/location/attendees are
preserved. -/
theorem C9_witness :
    (mergeEventData (GEvent.mk "evt_1" "Team sync" (some "desc") (some "HQ") 60 150 none) { date := some (DateV.mk 2025 11 3), time := some (TimeV.mk 14 0) }).startMin = civilToMinutes (DateV.mk 2025 11 3) (TimeV.mk 14 0) ∧
    (mergeEventData (GEvent.mk "evt_1" "Team sync" (some "desc") (some "HQ") 60 150 none) { date := some (DateV.mk 2025 11 3), time := some (TimeV.mk 14 0) }).endMin = civilToMinutes (DateV.mk 2025 11 3) (TimeV.mk 14 0) + (150 - 60) ∧
    (mergeEventData (GEvent.mk "evt_1" "Team sync" (some "desc") (some "HQ") 60 150 none) { date := some (DateV.mk 2025 11 3), time := some (TimeV.mk 14 0) }).summary = "Team sync" ∧
    (mergeEventData (GEvent.mk "evt_1" "Team sync" (some "desc") (some "HQ") 60 150 none) { date := some (DateV.mk 2025 11 3), time := some (TimeV.mk 14 0) }).description = some "desc" := by
  have h := C9_merge_preserves_unspecified_fields
    (GEvent.mk "evt_1" "Team sync" (some "desc") (some "HQ") 60 150 none)
    { date := some (DateV.mk 2025 11 3), time := some (TimeV.mk 14 0) }
  obtain ⟨hs, he⟩ := h.1 (DateV.mk 2025 11 3) (TimeV.mk 14 0) rfl rfl rfl
    (by decide)
  exact ⟨hs, he, h.2.2.1 (by decide), (h.2.2.2.2.2.2.1 (by decide) rfl)⟩

end AICal

namespace AICal

/-- A substring of `y` is a substring of `x ++ y`. -/
theorem strInfix_left (x : String) {n : List Char} {y : String}
    (h : n <:+: y.data) : n <:+: (x ++ y).data := by
  rw [String.data_append]
  exact infix_appendL x.data h

/-- A substring of `y` is a substring of `y ++ z`. -/
theorem strInfix_right {n : List Char} {y : String} (h : n <:+: y.data)
    (z : String) : n <:+: (y ++ z).data := by
  rw [String.data_append]
  exact infix_appendR h z.data

/-- A substring of `d` is a substring of the `\n\n`-padded
`if d ≠ "" then d ++ pad else ""` (when `d` is empty the substring is empty
and trivially an infix). -/
theorem strInfix_ifne_pad {n : List Char} {d : String} (h : n <:+: d.data)
    (pad : String) :
    n <:+: ((if d ≠ "" then d ++ pad else "") : String).data := by
  split_ifs with hd
  · exact strInfix_right h pad
  · rw [not_not] at hd
    rw [hd] at h
    exact h

/-- Appending on the left of a nonempty string stays nonempty. -/
theorem string_append_ne2 (a b : String) (hb : b ≠ "") : a ++ b ≠ "" := by
  intro h
  apply hb
  have h2 := congrArg String.data h
  simp only [String.data_append] at h2
  have h3 := (List.append_eq_nil.mp (by simpa using h2)).2
  cases b
  simpa using congrArg String.mk h3

/-- **C10** — For every `create_event` execution, the event sent to the
calendar has a title that defaults to a synthesized
`Meeting on <date> at <time>` when the title field is absent or blank; an
attendees list filtered to entries with valid email syntax (it is attached
exactly when some entry is a valid email); and every attendee entry —
in particular every entry that is not a valid email — appears in the
event's description rather than being silently dropped. -/
theorem C10_create_event_formatting (e : EventInput) :
    ((e.title = none ∨ ∃ t, e.title = some t ∧ strTrim t = "") →
      (formatEventData e).summary =
        "Meeting on " ++ fmtMMMDDYYYY e.date ++ " at " ++ fmtHHmm e.time) ∧
    (∀ a ∈ ((formatEventData e).attendees).getD [],
      isValidEmail a.email = true) ∧
    (∀ atts, e.attendees = some atts →
      (formatEventData e).attendees =
        (if 0 < atts.length ∧ atts.filter isValidEmail ≠ [] then
          some ((atts.filter isValidEmail).map GAttendee.mk)
        else none)) ∧
    (∀ atts, e.attendees = some atts → ∀ name ∈ atts,
      name.data <:+: (formatEventData e).description.data) := by
  refine ⟨?_, ?_, ?_, ?_⟩
  · intro ht
    rcases ht with h | ⟨t, h, htr⟩
    · simp only [formatEventData, h]
    · simp only [formatEventData, h]
      rw [if_pos htr]
  · intro a ha
    simp only [formatEventData] at ha
    by_cases hc : (e.attendees.isSome &&
        decide (0 < (e.attendees.getD []).length)) &&
        decide (0 < (((e.attendees.getD []).filter isValidEmail).map
          GAttendee.mk).length)
    · rw [if_pos hc] at ha
      simp only [Option.getD_some] at ha
      obtain ⟨x, hx, rfl⟩ := List.mem_map.mp ha
      exact List.of_mem_filter hx
    · rw [if_neg hc] at ha
      simp at ha
  · intro atts hatt
    by_cases hlen : 0 < atts.length
    · by_cases hval : atts.filter isValidEmail ≠ []
      · have hc : 0 < atts.length ∧ atts.filter isValidEmail ≠ [] :=
          ⟨hlen, hval⟩
        rw [if_pos hc]
        have hb : 0 < ((atts.filter isValidEmail).map GAttendee.mk).length := by
          rw [List.length_map]
          exact List.length_pos.mpr hval
        have hcb : (decide (0 < atts.length) &&
            decide (0 < (List.map GAttendee.mk
              (List.filter isValidEmail atts)).length)) = true := by
          simp only [Bool.and_eq_true, decide_eq_true_eq]
          exact ⟨hlen, hb⟩
        simp only [formatEventData, hatt, Option.getD_some, Option.isSome_some,
          Bool.true_and, hcb, if_true]
      · have hval2 : atts.filter isValidEmail = [] := not_not.mp hval
        have hnc : ¬ (0 < atts.length ∧ atts.filter isValidEmail ≠ []) :=
          fun hc => hval hc.2
        rw [if_neg hnc]
        simp [formatEventData, hatt, hval2]
    · have hnc : ¬ (0 < atts.length ∧ atts.filter isValidEmail ≠ []) :=
        fun hc => hlen hc.1
      rw [if_neg hnc]
      simp [formatEventData, hatt, hlen]
  · intro atts hatt name hname
    have hj : name.data <:+: (joinComma atts).data := mem_joinComma atts name hname
    have hlen : 0 < atts.length :=
      List.length_pos.mpr (List.ne_nil_of_mem hname)
    simp only [formatEventData, hatt, Option.getD_some, Option.isSome_some,
      Bool.true_and, decide_eq_true_eq, hlen, if_true]
    by_cases hloc : strTruthy e.location = true
    · rw [if_pos hloc]
      by_cases hval : 0 < ((atts.filter isValidEmail).map GAttendee.mk).length
      · rw [if_pos hval]
        exact strInfix_right (strInfix_right (strInfix_ifne_pad
          (strInfix_left _ hj) _) _) _
      · rw [if_neg hval]
        by_cases hnm : 0 < (atts.filter
            (fun n => n ≠ "" && strTrim n ≠ "")).length
        · rw [if_pos hnm]
          exact strInfix_right (strInfix_right (strInfix_ifne_pad
            (strInfix_right (strInfix_right (strInfix_ifne_pad
              (strInfix_left _ hj) _) _) _) _) _) _
        · rw [if_neg hnm]
          exact strInfix_right (strInfix_right (strInfix_ifne_pad
            (strInfix_left _ hj) _) _) _
    · rw [if_neg hloc]
      by_cases hval : 0 < ((atts.filter isValidEmail).map GAttendee.mk).length
      · rw [if_pos hval]
        exact strInfix_left _ hj
      · rw [if_neg hval]
        by_cases hnm : 0 < (atts.filter
            (fun n => n ≠ "" && strTrim n ≠ "")).length
        · rw [if_pos hnm]
          exact strInfix_right (strInfix_right (strInfix_ifne_pad
            (strInfix_left _ hj) _) _) _
        · rw [if_neg hnm]
          exact strInfix_left _ hj

/-- **C10 witness** — creating an event with no title, date 2025-11-03,
time 14:00, attendees `["a@b.com", "John"]`: the summary is the synthesized
`Meeting on Nov 03, 2025 at 14:00`, only `a@b.com` is attached as an
attendee, and the non-email name `John` appears in the description. -/
theorem C10_witness :
    (formatEventData { date := DateV.mk 2025 11 3, time := TimeV.mk 14 0, attendees := some ["a@b.com", "John"] }).summary = "Meeting on " ++ fmtMMMDDYYYY (DateV.mk 2025 11 3) ++ " at " ++ fmtHHmm (TimeV.mk 14 0) ∧
    (formatEventData { date := DateV.mk 2025 11 3, time := TimeV.mk 14 0, attendees := some ["a@b.com", "John"] }).summary = "Meeting on Nov 03, 2025 at 14:00" ∧
    (formatEventData { date := DateV.mk 2025 11 3, time := TimeV.mk 14 0, attendees := some ["a@b.com", "John"] }).attendees = some [GAttendee.mk "a@b.com"] ∧
    ("John").data <:+: (formatEventData { date := DateV.mk 2025 11 3, time := TimeV.mk 14 0, attendees := some ["a@b.com", "John"] }).description.data := by
  have h := C10_create_event_formatting { date := DateV.mk 2025 11 3, time := TimeV.mk 14 0, attendees := some ["a@b.com", "John"] }
  refine ⟨h.1 (Or.inl rfl), ?_, ?_, h.2.2.2 ["a@b.com", "John"] rfl "John" (by decide)⟩
  · rw [h.1 (Or.inl rfl)]
    decide
  · have hcnd : 0 < (["a@b.com", "John"] : List String).length ∧
        (["a@b.com", "John"] : List String).filter isValidEmail ≠ [] := by
      decide
    have hf : (["a@b.com", "John"] : List String).filter isValidEmail =
        ["a@b.com"] := by decide
    rw [h.2.2.1 ["a@b.com", "John"] rfl, if_pos hcnd, hf]
    rfl

end AICal
